import Mathlib

/-!
Verification of the logo-generator CLI (Deno/TypeScript).

The source is shallowly embedded: strings are lists of characters,
JavaScript numbers are naturals or rationals, asynchronous operations are
modelled by explicit attempt-indexed oracles, and the file system backing
the cache is an explicit list of file records.  Every definition follows
the corresponding source function; modelling notes appear where the
JavaScript runtime semantics need an explanation.
-/

namespace LogoGen

/-- Strings are modelled as lists of characters. -/
abbrev Str := List Char

/-- Embed a Lean string literal into the model representation. -/
def str (s : String) : Str := s.data

deriving instance DecidableEq for Except

/-! ## Generic string utilities shared by the embedded modules -/

/-- Boolean test that the first list is a leading segment of the second. -/
def leadsB : Str → Str → Bool
  | [], _ => true
  | _ :: _, [] => false
  | a :: as, b :: bs => a == b && leadsB as bs

/-- Substring test, as the JavaScript String.includes test. -/
def isSubstr (pat : Str) : Str → Bool
  | [] => leadsB pat []
  | c :: rest => leadsB pat (c :: rest) || isSubstr pat rest

/-- Locate the first occurrence of a nonempty pattern: returns the part
before the occurrence and the part after it. -/
def splitFirst (pat : Str) : Str → Option (Str × Str)
  | [] => none
  | c :: rest =>
    if leadsB pat (c :: rest) then some ([], (c :: rest).drop pat.length)
    else match splitFirst pat rest with
         | none => none
         | some (pre, post) => some (c :: pre, post)

/-- Fuelled worker for global find-and-replace. -/
def replaceAllAux (pat rep : Str) : Nat → Str → Str
  | 0, s => s
  | fuel + 1, s =>
    match splitFirst pat s with
    | none => s
    | some (pre, post) => pre ++ rep ++ replaceAllAux pat rep fuel post

/-- JavaScript String.replace with a global literal pattern.  The dollar
escape sequences of JavaScript replacement strings are not interpreted;
every theorem quantifying over the replacement covers both readings. -/
def replaceAll (pat rep s : Str) : Str := replaceAllAux pat rep s.length s

/-- Fuelled worker for splitting on a nonempty separator. -/
def jsSplitAux (sep : Str) : Nat → Str → List Str
  | 0, s => [s]
  | fuel + 1, s =>
    match splitFirst sep s with
    | none => [s]
    | some (pre, post) => pre :: jsSplitAux sep fuel post

/-- JavaScript String.split with a nonempty string separator. -/
def jsSplit (sep s : Str) : List Str := jsSplitAux sep s.length s

/-- White space in the sense of the JavaScript trim operation. -/
def isJsSpace (c : Char) : Bool :=
  c == ' ' || c == '\t' || c == '\n' || c == '\r' ||
  c == '\x0b' || c == '\x0c' || c.toNat == 160 ||
  c.toNat == 65279 || c.toNat == 5760 ||
  (8192 ≤ c.toNat && c.toNat ≤ 8202) ||
  c.toNat == 8232 || c.toNat == 8233 || c.toNat == 8239 ||
  c.toNat == 8287 || c.toNat == 12288

/-- JavaScript String.trim. -/
def jsTrim (s : Str) : Str :=
  ((s.dropWhile isJsSpace).reverse.dropWhile isJsSpace).reverse

/-- ASCII lowercasing; the error messages and CSV headers classified by the
source are ASCII, so the locale-free JavaScript toLowerCase agrees. -/
def jsToLower (s : Str) : Str := s.map Char.toLower

/-- Array.prototype.join with a separator. -/
def joinSep (sep : Str) : List Str → Str
  | [] => []
  | [x] => x
  | x :: y :: rest => x ++ sep ++ joinSep sep (y :: rest)

/-- Boolean test that the first list is a trailing segment of the second. -/
def trailsB (pat s : Str) : Bool := leadsB pat.reverse s.reverse

/-! ## SHA-256 (the digest primitive used by createPromptHash)

The cache key calls the runtime SHA-256 digest; the algorithm of
FIPS 180-4 is reproduced here over naturals reduced modulo two to the
thirty-second power. -/

/-- Reduce to a 32-bit word. -/
def mod32 (n : Nat) : Nat := n % 4294967296

/-- Right rotation of a 32-bit word. -/
def rotr (k x : Nat) : Nat := mod32 (Nat.shiftRight x k ||| Nat.shiftLeft x (32 - k))

/-- Bitwise complement of a 32-bit word. -/
def not32 (x : Nat) : Nat := Nat.xor x 4294967295

/-- SHA-256 choice function. -/
def ch (x y z : Nat) : Nat := Nat.xor (x &&& y) (not32 x &&& z)

/-- SHA-256 majority function. -/
def maj (x y z : Nat) : Nat := Nat.xor (x &&& y) (Nat.xor (x &&& z) (y &&& z))

/-- Upper-case sigma 0. -/
def bsig0 (x : Nat) : Nat := Nat.xor (rotr 2 x) (Nat.xor (rotr 13 x) (rotr 22 x))

/-- Upper-case sigma 1. -/
def bsig1 (x : Nat) : Nat := Nat.xor (rotr 6 x) (Nat.xor (rotr 11 x) (rotr 25 x))

/-- Lower-case sigma 0. -/
def ssig0 (x : Nat) : Nat := Nat.xor (rotr 7 x) (Nat.xor (rotr 18 x) (Nat.shiftRight x 3))

/-- Lower-case sigma 1. -/
def ssig1 (x : Nat) : Nat := Nat.xor (rotr 17 x) (Nat.xor (rotr 19 x) (Nat.shiftRight x 10))

/-- The 64 round constants. -/
def shaK : List Nat :=
  [1116352408, 1899447441, 3049323471, 3921009573, 961987163, 1508970993, 2453635748, 2870763221,
   3624381080, 310598401, 607225278, 1426881987, 1925078388, 2162078206, 2614888103, 3248222580,
   3835390401, 4022224774, 264347078, 604807628, 770255983, 1249150122, 1555081692, 1996064986,
   2554220882, 2821834349, 2952996808, 3210313671, 3336571891, 3584528711, 113926993, 338241895,
   666307205, 773529912, 1294757372, 1396182291, 1695183700, 1986661051, 2177026350, 2456956037,
   2730485921, 2820302411, 3259730800, 3345764771, 3516065817, 3600352804, 4094571909, 275423344,
   430227734, 506948616, 659060556, 883997877, 958139571, 1322822218, 1537002063, 1747873779,
   1955562222, 2024104815, 2227730452, 2361852424, 2428436474, 2756734187, 3204031479, 3329325298]

/-- Running state of the compression function. -/
structure Hash8 where
  a : Nat
  b : Nat
  c : Nat
  d : Nat
  e : Nat
  f : Nat
  g : Nat
  h : Nat

/-- The initial hash value. -/
def shaH0 : Hash8 :=
  ⟨1779033703, 3144134277, 1013904242, 2773480762, 1359893119, 2600822924, 528734635, 1541459225⟩

/-- Message padding: a one bit, zeros, then the bit length on 8 bytes. -/
def padMessage (msg : List Nat) : List Nat :=
  let bitLen := 8 * msg.length
  let zeros := (119 - msg.length % 64) % 64
  msg ++ [128] ++ List.replicate zeros 0 ++
    [56, 48, 40, 32, 24, 16, 8, 0].map (fun k => Nat.shiftRight bitLen k % 256)

/-- Fuelled split into 64-byte blocks. -/
def chunksAux : Nat → List Nat → List (List Nat)
  | 0, _ => []
  | _, [] => []
  | fuel + 1, l => l.take 64 :: chunksAux fuel (l.drop 64)

/-- Split a byte list into 64-byte blocks. -/
def chunks64 (l : List Nat) : List (List Nat) := chunksAux l.length l

/-- Big-endian 32-bit words from bytes. -/
def bytesToWords : List Nat → List Nat
  | b0 :: b1 :: b2 :: b3 :: rest => (((b0 * 256 + b1) * 256 + b2) * 256 + b3) :: bytesToWords rest
  | _ => []

/-- One step of the message-schedule extension. -/
def nextWord (acc : List Nat) : Nat :=
  let t := acc.length
  mod32 (ssig1 (acc.getD (t - 2) 0) + acc.getD (t - 7) 0 +
         ssig0 (acc.getD (t - 15) 0) + acc.getD (t - 16) 0)

/-- Extend the schedule by the given number of words. -/
def extendWords : Nat → List Nat → List Nat
  | 0, acc => acc
  | n + 1, acc => extendWords n (acc ++ [nextWord acc])

/-- One round of compression with a constant and a schedule word. -/
def compressStep (s : Hash8) (kw : Nat × Nat) : Hash8 :=
  let t1 := mod32 (s.h + bsig1 s.e + ch s.e s.f s.g + kw.1 + kw.2)
  let t2 := mod32 (bsig0 s.a + maj s.a s.b s.c)
  ⟨mod32 (t1 + t2), s.a, s.b, s.c, mod32 (s.d + t1), s.e, s.f, s.g⟩

/-- Compress one 64-byte block into the running hash. -/
def compressBlock (H : Hash8) (block : List Nat) : Hash8 :=
  let W := extendWords 48 (bytesToWords block)
  let s := (shaK.zip W).foldl compressStep H
  ⟨mod32 (H.a + s.a), mod32 (H.b + s.b), mod32 (H.c + s.c), mod32 (H.d + s.d),
   mod32 (H.e + s.e), mod32 (H.f + s.f), mod32 (H.g + s.g), mod32 (H.h + s.h)⟩

/-- SHA-256 of a byte list, as eight 32-bit words. -/
def sha256Words (msg : List Nat) : Hash8 :=
  (chunks64 (padMessage msg)).foldl compressBlock shaH0

/-- A hexadecimal digit character. -/
def hexDigit (n : Nat) : Char := if n < 10 then Char.ofNat (48 + n) else Char.ofNat (87 + n)

/-- Lowercase hexadecimal encoding of one 32-bit word. -/
def wordToHex (w : Nat) : Str :=
  [hexDigit (w / 268435456 % 16), hexDigit (w / 16777216 % 16),
   hexDigit (w / 1048576 % 16), hexDigit (w / 65536 % 16),
   hexDigit (w / 4096 % 16), hexDigit (w / 256 % 16),
   hexDigit (w / 16 % 16), hexDigit (w % 16)]

/-- Hex-encoded SHA-256 digest of a byte list. -/
def sha256Hex (msg : List Nat) : Str :=
  let H := sha256Words msg
  wordToHex H.a ++ wordToHex H.b ++ wordToHex H.c ++ wordToHex H.d ++
  wordToHex H.e ++ wordToHex H.f ++ wordToHex H.g ++ wordToHex H.h

/-- UTF-8 encoding of one character. -/
def utf8Char (c : Char) : List Nat :=
  let n := c.toNat
  if n < 128 then [n]
  else if n < 2048 then [192 + n / 64, 128 + n % 64]
  else if n < 65536 then [224 + n / 4096, 128 + n / 64 % 64, 128 + n % 64]
  else [240 + n / 262144, 128 + n / 4096 % 64, 128 + n / 64 % 64, 128 + n % 64]

/-- UTF-8 encoding of a string. -/
def utf8 (s : Str) : List Nat := s.flatMap utf8Char

/-! ## The default JavaScript sort order (UTF-16 code units) -/

/-- UTF-16 code units of one character. -/
def utf16Char (c : Char) : List Nat :=
  let n := c.toNat
  if n < 65536 then [n]
  else [55296 + (n - 65536) / 1024, 56320 + (n - 65536) % 1024]

/-- UTF-16 code units of a string. -/
def utf16Units (s : Str) : List Nat := s.flatMap utf16Char

/-- Lexicographic order on code-unit lists. -/
def lexLeUnits : List Nat → List Nat → Bool
  | [], _ => true
  | _ :: _, [] => false
  | a :: as, b :: bs => if a < b then true else if b < a then false else lexLeUnits as bs

/-- The comparator-free JavaScript Array.prototype.sort order on strings. -/
def jsLe (a b : Str) : Prop := lexLeUnits (utf16Units a) (utf16Units b) = true

instance : DecidableRel jsLe := fun a b => by
  unfold jsLe; infer_instance

/-- Ascending sort of strings in the default JavaScript order. -/
def jsSortStrings (l : List Str) : List Str := List.insertionSort jsLe l

/-! ## CacheManager.createPromptHash -/

/-- Truthy string coalescing: the JavaScript expression a or-else b where
an empty string is falsy. -/
def orElseStr (a : Option Str) (b : Str) : Str :=
  match a with
  | some s => if s.isEmpty then b else s
  | none => b

/-- CacheManager.createPromptHash from the source: the SHA-256 digest of
the canonical string, hex encoded, truncated to 16 characters. -/
def createPromptHash (company prompt : Str) (style : Option Str) (colors : Option (List Str)) : Str :=
  let colorsPart : Str :=
    match colors with
    | some cs => joinSep (str ",") (jsSortStrings cs)
    | none => []
  let input := company ++ str ":" ++ prompt ++ str ":" ++ orElseStr style (str "default") ++
    str ":" ++ colorsPart
  (sha256Hex (utf8 input)).take 16

/-- Modelled from the spec: the canonical input string of section 4.2,
company, prompt, style defaulted to the word default, and the ascending
comma-joined colors, separated by colons. -/
def canonicalStringSpec (company prompt : Str) (style : Option Str) (colors : Option (List Str)) : Str :=
  company ++ str ":" ++ prompt ++ str ":" ++ orElseStr style (str "default") ++ str ":" ++
    (match colors with
     | some cs => joinSep (str ",") (jsSortStrings cs)
     | none => [])

/-! ## Truthiness helpers for optional strings -/

/-- Truthiness of an optional string: absent and empty are falsy. -/
def truthyS (a : Option Str) : Bool :=
  match a with
  | some s => !s.isEmpty
  | none => false

/-- The JavaScript or-else over two optional strings. -/
def orOptStr (a b : Option Str) : Option Str := if truthyS a then a else b

/-! ## Data model (core/types.ts runtime shapes) -/

/-- LogoMetadata from core/types.ts; the cost is a rational. -/
structure LogoMetadata where
  id : Str
  timestamp : Nat
  company : Str
  originalPrompt : Str
  finalPrompt : Str
  style : Str
  industry : Option Str
  size : Str
  quality : Str
  cost : ℚ
deriving DecidableEq

/-- LogoResult from core/types.ts. -/
structure LogoResult where
  url : Str
  revisedPrompt : Option Str
  metadata : LogoMetadata
  localPath : Option Str
deriving DecidableEq

/-- LogoRequest from core/types.ts; optional enums are runtime strings. -/
structure LogoRequest where
  company : Str
  prompt : Str
  style : Option Str := none
  industry : Option Str := none
  colors : Option (List Str) := none
  size : Option Str := none
  quality : Option Str := none
deriving DecidableEq

/-- GenerationOptions from core/types.ts. -/
structure GenerationOptions where
  style : Option Str := none
  industry : Option Str := none
  colors : Option (List Str) := none
  size : Option Str := none
  quality : Option Str := none
  template : Option Str := none
  negativePrompts : Option (List Str) := none
  customElements : Option (List Str) := none
deriving DecidableEq

/-! ## RetryStrategy (utils/retry.ts)

A failure is a record carrying the message text and whether the value is
an instance of the RateLimitError class.  The asynchronous operation is
an oracle indexed by the 1-based attempt number, and the jitter values
produced by Math.random are an oracle indexed the same way, so that a
fresh draw per attempt is visible in the statements.  The trace records
the outcome, the number of invocations and every backoff sleep. -/

/-- A JavaScript error value as classified by the retry strategy. -/
structure JsError where
  isRateLimitInstance : Bool
  message : Str
deriving DecidableEq

/-- RetryStrategy.isRateLimitError. -/
def isRateLimitError (e : JsError) : Bool :=
  e.isRateLimitInstance ||
    (let m := jsToLower e.message
     isSubstr (str "rate limit") m || isSubstr (str "too many requests") m ||
       isSubstr (str "quota exceeded") m)

/-- RetryStrategy.isRetryableError. -/
def isRetryableError (e : JsError) : Bool :=
  let m := jsToLower e.message
  isSubstr (str "network") m || isSubstr (str "timeout") m ||
    isSubstr (str "connection") m || isSubstr (str "econnreset") m ||
    isSubstr (str "socket hang up") m

/-- RetryStrategy.calculateBackoffDelay with the Math.random draw made an
explicit argument (the source multiplies the draw by 1000). -/
def calculateBackoffDelay (attempt : Nat) (jitter : ℚ) : ℚ :=
  min ((1000 : ℚ) * 2 ^ (attempt - 1) + jitter) 30000

/-- Observable trace of one call to RetryStrategy.execute. -/
structure RetryTrace (α : Type) where
  result : Except JsError α
  invocations : Nat
  sleeps : List (Nat × ℚ)

/-- Loop of RetryStrategy.execute, structurally recursive on the number
of loop iterations left; the third argument carries lastError.  When the
loop is never entered the source throws an undefined lastError, modelled
by a blank error value. -/
def executeAux {α : Type} (op : Nat → Except JsError α) (jit : Nat → ℚ) (maxRetries : Nat) :
    Nat → Nat → Option JsError → RetryTrace α
  | _, 0, last => ⟨.error ((last).getD ⟨false, []⟩), 0, []⟩
  | attempt, remaining + 1, _ =>
    match op attempt with
    | .ok v => ⟨.ok v, 1, []⟩
    | .error e =>
      if isRateLimitError e then
        let rest := executeAux op jit maxRetries (attempt + 1) remaining (some e)
        ⟨rest.result, rest.invocations + 1,
          (attempt, calculateBackoffDelay attempt (jit attempt)) :: rest.sleeps⟩
      else if isRetryableError e ∧ attempt < maxRetries then
        let rest := executeAux op jit maxRetries (attempt + 1) remaining (some e)
        ⟨rest.result, rest.invocations + 1,
          (attempt, calculateBackoffDelay attempt (jit attempt)) :: rest.sleeps⟩
      else ⟨.error e, 1, []⟩

/-- RetryStrategy.execute with its default of three total attempts. -/
def execute {α : Type} (op : Nat → Except JsError α) (jit : Nat → ℚ)
    (maxRetries : Nat := 3) : RetryTrace α :=
  executeAux op jit maxRetries 1 maxRetries none

/-! ## CacheManager (infrastructure/cache.ts)

The in-memory map is an association list in insertion order and the
cache directory is a list of file records.  A file whose JSON does not
parse is a record with no content.  Wall-clock instants are naturals
(epoch milliseconds) passed explicitly where the source calls Date.now.
The byte size of a written JSON file is passed as an argument rather
than recomputing the serialisation. -/

/-- The cached entry: the stored result together with the absolute
expiry and the hit flag (the source spreads the result flat). -/
structure CachedLogo where
  result : LogoResult
  expiresAt : Nat
  hit : Bool
deriving DecidableEq

/-- One persisted cache file. -/
structure FileEntry where
  name : Str
  content : Option CachedLogo
  size : Nat
  mtime : Nat
deriving DecidableEq

/-- Constructor-derived configuration: ttl in milliseconds and the size
bound in bytes. -/
structure CacheConfig where
  ttlMs : Nat
  maxSize : Nat

/-- The two tiers of the cache. -/
structure CacheState where
  memory : List (Str × CachedLogo)
  files : List FileEntry

/-- Lookup in the in-memory map. -/
def memLookup (k : Str) : List (Str × CachedLogo) → Option CachedLogo
  | [] => none
  | (k2, v) :: rest => if k2 = k then some v else memLookup k rest

/-- Map.set: overwrite in place or append. -/
def memInsert (k : Str) (v : CachedLogo) : List (Str × CachedLogo) → List (Str × CachedLogo)
  | [] => [(k, v)]
  | (k2, v2) :: rest => if k2 = k then (k, v) :: rest else (k2, v2) :: memInsert k v rest

/-- Find the persisted file of a key. -/
def fileLookup (k : Str) : List FileEntry → Option FileEntry
  | [] => none
  | fe :: rest => if fe.name = k then some fe else fileLookup k rest

/-- Write the persisted file of a key, overwriting any previous one. -/
def fileWrite (fe : FileEntry) : List FileEntry → List FileEntry
  | [] => [fe]
  | fe2 :: rest => if fe2.name = fe.name then fe :: rest else fe2 :: fileWrite fe rest

/-- CacheManager.get at a given instant: memory first, then the file
tier with promotion into memory.  Returns the value handed to the
caller and the state after the call. -/
def cacheGet (now : Nat) (k : Str) (s : CacheState) : Option CachedLogo × CacheState :=
  let memHit :=
    match memLookup k s.memory with
    | some c => if now ≤ c.expiresAt then some c else none
    | none => none
  match memHit with
  | some c => (some { c with hit := true }, s)
  | none =>
    match fileLookup k s.files with
    | some fe =>
      match fe.content with
      | some c =>
        if now ≤ c.expiresAt then
          (some { c with hit := true }, { s with memory := memInsert k c s.memory })
        else (none, s)
      | none => (none, s)
    | none => (none, s)

/-- Total byte size of the persisted entries. -/
def totalFileSize (files : List FileEntry) : Nat := (files.map FileEntry.size).sum

/-- A persisted entry the cleanup scan marks for deletion: unparsable or
expired at the given instant. -/
def entryDead (now : Nat) (fe : FileEntry) : Bool :=
  match fe.content with
  | some c => decide (c.expiresAt < now)
  | none => true

/-- Stable ascending sort by modification time (the source sorts with
the comparator a.mtime - b.mtime). -/
def sortByMtime (files : List FileEntry) : List FileEntry :=
  List.insertionSort (fun a b => a.mtime ≤ b.mtime) files

/-- Deletion loop of CacheManager.cleanupBySize: walk the files oldest
first and delete while the running size is above 80 percent of the
bound, carrying the running size.  The source compares against the
floating product maxSize * 0.8; the model uses the exact four fifths. -/
def removeOldest (maxSize : Nat) : List FileEntry → Nat → List FileEntry
  | [], _ => []
  | f :: rest, cur =>
    if 5 * cur ≤ 4 * maxSize then f :: rest
    else removeOldest maxSize rest (cur - f.size)

/-- CacheManager.cleanupBySize over the current directory listing. -/
def cleanupBySize (cfg : CacheConfig) (files : List FileEntry) : List FileEntry :=
  let sorted := sortByMtime files
  removeOldest cfg.maxSize sorted (totalFileSize sorted)

/-- CacheManager.cleanup: delete expired or unparsable files, then, when
the pre-scan total size exceeded the bound, evict by age; finally purge
expired entries from the memory tier. -/
def cleanup (cfg : CacheConfig) (now : Nat) (s : CacheState) : CacheState :=
  let totalSize := totalFileSize s.files
  let kept := s.files.filter (fun fe => !entryDead now fe)
  let files2 := if totalSize > cfg.maxSize then cleanupBySize cfg kept else kept
  let mem2 := s.memory.filter (fun kv => !decide (kv.2.expiresAt < now))
  ⟨mem2, files2⟩

/-- CacheManager.set at a given instant: build the entry with the
absolute expiry, write both tiers, then run the probabilistic cleanup
when the Math.random draw fell under ten percent (the draw outcome is
the doCleanup argument; sz is the byte size of the written JSON). -/
def cacheSet (cfg : CacheConfig) (now : Nat) (k : Str) (v : LogoResult) (sz : Nat)
    (doCleanup : Bool) (s : CacheState) : CacheState :=
  let cached : CachedLogo := ⟨v, now + cfg.ttlMs, false⟩
  let s1 : CacheState := ⟨memInsert k cached s.memory, fileWrite ⟨k, some cached, sz, now⟩ s.files⟩
  if doCleanup then cleanup cfg now s1 else s1

/-! ## PromptEngine (core/prompts.ts)

The basic engine used for template-free generation.  Only the base
description of each industry template is consulted by optimize; the
other record fields are never read on this path. -/

/-- Base description per industry (PromptEngine.initializeTemplates). -/
def industryBase (i : Str) : Option Str :=
  if i = str "technology" then some (str "minimalist tech logo with geometric elements")
  else if i = str "healthcare" then some (str "medical logo with caring symbolism")
  else if i = str "finance" then some (str "financial services logo conveying trust")
  else if i = str "retail" then some (str "retail brand logo appealing to customers")
  else if i = str "food" then some (str "food and beverage logo with appetite appeal")
  else if i = str "education" then some (str "educational logo promoting learning")
  else none

/-- PromptEngine.initializeStyleModifiers. -/
def styleModifier (s : Str) : Option Str :=
  if s = str "modern" then some (str "contemporary design, sleek lines, current trends")
  else if s = str "vintage" then some (str "retro aesthetic, classic elements, nostalgic feel")
  else if s = str "minimal" then some (str "simple clean design, essential elements only, whitespace")
  else if s = str "playful" then some (str "vibrant colors, dynamic composition, fun elements")
  else if s = str "classic" then some (str "timeless design, traditional elements, elegant")
  else if s = str "bold" then some (str "strong visual impact, dramatic elements, confident")
  else if s = str "elegant" then some (str "refined aesthetics, sophisticated, premium feel")
  else if s = str "tech" then some (str "futuristic elements, digital theme, innovation")
  else none

/-- PromptEngine.buildBasePrompt. -/
def buildBasePrompt (req : LogoRequest) (style : Str) (industry : Option Str) : Str :=
  let base :=
    match (if truthyS industry then industry else none) with
    | some i => (industryBase i).getD (str "professional logo")
    | none => str "professional logo"
  style ++ str " " ++ base ++ str " for " ++ req.company ++ str ": " ++ req.prompt

/-- PromptEngine.addStyleElements. -/
def addStyleElements (p : Str) (style : Str) : Str :=
  p ++ str ", " ++ (styleModifier style).getD []

/-- PromptEngine.addColorGuidance. -/
def addColorGuidance (p : Str) (colors : Option (List Str)) : Str :=
  match colors with
  | none => p
  | some cs =>
    if cs.isEmpty then p
    else if cs.length = 1 then
      p ++ str ", " ++ str "primarily " ++ cs.headD [] ++ str " color scheme"
    else
      p ++ str ", " ++ str "using " ++ joinSep (str ", ") cs.dropLast ++ str " and " ++
        cs.getLastD [] ++ str " colors"

/-- PromptEngine.addQualityModifiers. -/
def addQualityModifiers (p : Str) : Str :=
  p ++ str ", " ++ joinSep (str ", ")
    [str "clean geometric shapes", str "scalable vector design", str "professional quality",
     str "suitable for branding", str "on white background", str "high contrast",
     str "memorable and distinctive"]

/-- PromptEngine.optimize, the template-free prompt builder. -/
def basicOptimize (req : LogoRequest) (opts : GenerationOptions) : Str :=
  let style := orElseStr opts.style (orElseStr req.style (str "modern"))
  let industry := orOptStr opts.industry req.industry
  let colors := match opts.colors with
    | some cs => some cs
    | none => req.colors
  addQualityModifiers (addColorGuidance (addStyleElements (buildBasePrompt req style industry) style) colors)

/-! ## ProfessionalPromptEngine (core/professional-prompts.ts)

The template catalog records the fields generateFromTemplate reads: the
identifier, the base prompt and the built-in negative prompts. -/

/-- The recorded fields of a professional template. -/
structure ProfTemplate where
  id : Str
  basePrompt : Str
  negativePrompts : List Str
deriving DecidableEq

/-- The fixed 26-entry template catalog (initializeProfessionalTemplates),
in insertion order. -/
def professionalTemplates : List (Str × ProfTemplate) :=
  [(str "minimal-geometric",
   { id := str "minimal-geometric",
     basePrompt := str "Minimalist geometric logo, [SHAPE] form, flat vector design, [PRIMARY_COLOR] on white background, sharp edges, scalable",
     negativePrompts := [str "no gradients", str "no 3D effects", str "no ornate details"] }),
  (str "minimal-lettermark",
   { id := str "minimal-lettermark",
     basePrompt := str "Single letter [LETTER] logo, sans-serif, bold weight, flat design, [PRIMARY_COLOR] monochrome, centered composition on white background",
     negativePrompts := [str "no decorative elements", str "no complex styling", str "no shadows"] }),
  (str "corporate-tech",
   { id := str "corporate-tech",
     basePrompt := str "Modern tech company logo featuring [ELEMENT], clean minimalist style, [PRIMARY_COLOR] and [SECONDARY_COLOR] color scheme, vector design, professional, white background",
     negativePrompts := [str "no realistic details", str "no ornate elements", str "no vintage styling"] }),
  (str "corporate-finance",
   { id := str "corporate-finance",
     basePrompt := str "Conservative financial logo, [SYMBOL] emblem, navy blue and gray palette, professional grade, symmetric composition, trustworthy design",
     negativePrompts := [str "no casual elements", str "no bright colors", str "no playful styling"] }),
  (str "industry-healthcare",
   { id := str "industry-healthcare",
     basePrompt := str "Medical [SPECIALTY] logo, [MEDICAL_SYMBOL], calming [PRIMARY_COLOR] palette, rounded shapes, trustworthy design, clean vector on white",
     negativePrompts := [str "no sharp angles", str "no aggressive imagery", str "no dark themes"] }),
  (str "creative-abstract",
   { id := str "creative-abstract",
     basePrompt := str "Abstract creative logo inspired by [ART_MOVEMENT], bold [COLOR_PALETTE], dynamic composition, artistic expression, vector style",
     negativePrompts := [str "no photorealistic elements", str "no literal imagery"] }),
  (str "minimal-abstract",
   { id := str "minimal-abstract",
     basePrompt := str "Abstract minimal logo, flowing [SHAPE] design, [PRIMARY_COLOR] gradient, artistic simplicity, vector style on white background",
     negativePrompts := [str "no complex details", str "no realistic elements", str "no busy patterns"] }),
  (str "corporate-consulting",
   { id := str "corporate-consulting",
     basePrompt := str "Professional consulting logo, clean [SYMBOL], sophisticated [PRIMARY_COLOR] and gray palette, business-grade typography, trustworthy design",
     negativePrompts := [str "no casual styling", str "no playful elements", str "no bright colors"] }),
  (str "corporate-professional",
   { id := str "corporate-professional",
     basePrompt := str "Clean professional business logo, [ELEMENT] symbol, modern [PRIMARY_COLOR] palette, scalable design, corporate identity",
     negativePrompts := [str "no informal elements", str "no artistic flourishes", str "no complex imagery"] }),
  (str "creative-artistic",
   { id := str "creative-artistic",
     basePrompt := str "Artistic logo inspired by [ART_STYLE], creative expression, bold [COLOR_PALETTE], dynamic visual impact, artistic vector design",
     negativePrompts := [str "no corporate styling", str "no conservative colors", str "no rigid structure"] }),
  (str "creative-playful",
   { id := str "creative-playful",
     basePrompt := str "Playful creative logo, fun [ELEMENT], bright [COLOR_PALETTE], friendly design, approachable aesthetic, vector style",
     negativePrompts := [str "no serious tone", str "no dark colors", str "no formal structure"] }),
  (str "industry-tech",
   { id := str "industry-tech",
     basePrompt := str "Technology logo featuring [TECH_ELEMENT], innovative design, [PRIMARY_COLOR] tech palette, modern digital aesthetic, scalable vector",
     negativePrompts := [str "no outdated styling", str "no organic elements", str "no handwritten fonts"] }),
  (str "industry-finance",
   { id := str "industry-finance",
     basePrompt := str "Financial services logo, [SYMBOL] emblem, trustworthy [PRIMARY_COLOR] palette, stable design, professional banking aesthetic",
     negativePrompts := [str "no risky imagery", str "no bright colors", str "no playful elements"] }),
  (str "industry-food",
   { id := str "industry-food",
     basePrompt := str "Food and beverage logo, [FOOD_ELEMENT], appetizing [COLOR_PALETTE], warm inviting design, culinary aesthetic, vector style",
     negativePrompts := [str "no cold colors", str "no industrial look", str "no tech elements"] }),
  (str "industry-education",
   { id := str "industry-education",
     basePrompt := str "Educational logo featuring [EDU_SYMBOL], learning-focused design, [PRIMARY_COLOR] academic palette, trustworthy educational aesthetic",
     negativePrompts := [str "no childish elements", str "no commercial styling", str "no bright neon"] }),
  (str "minimal-wordmark",
   { id := str "minimal-wordmark",
     basePrompt := str "Clean wordmark logo for [COMPANY], minimal typography, [PRIMARY_COLOR] lettering, modern sans-serif style, simple and readable",
     negativePrompts := [str "no decorative elements", str "no symbols", str "no complex styling"] }),
  (str "minimal-emblem",
   { id := str "minimal-emblem",
     basePrompt := str "Simple emblem logo, circular badge design, [COMPANY] text, [PRIMARY_COLOR] and white, clean minimal styling, vector badge",
     negativePrompts := [str "no ornate details", str "no complex patterns", str "no gradients"] }),
  (str "corporate-startup",
   { id := str "corporate-startup",
     basePrompt := str "Modern startup logo, innovative [ELEMENT], fresh [PRIMARY_COLOR] palette, dynamic design, entrepreneurial spirit, scalable vector",
     negativePrompts := [str "no traditional styling", str "no conservative colors", str "no formal structure"] }),
  (str "corporate-legal",
   { id := str "corporate-legal",
     basePrompt := str "Legal services logo, [LEGAL_SYMBOL], authoritative [PRIMARY_COLOR] palette, professional law firm design, trustworthy aesthetic",
     negativePrompts := [str "no casual elements", str "no bright colors", str "no playful styling"] }),
  (str "creative-modern",
   { id := str "creative-modern",
     basePrompt := str "Modern creative logo, contemporary [ELEMENT], sophisticated [COLOR_PALETTE], artistic yet professional, creative industry standard",
     negativePrompts := [str "no outdated styling", str "no clich√© elements", str "no overly busy design"] }),
  (str "creative-handcraft",
   { id := str "creative-handcraft",
     basePrompt := str "Handcraft artisan logo, [CRAFT_ELEMENT], organic [COLOR_PALETTE], handmade aesthetic, artisanal quality, authentic design",
     negativePrompts := [str "no digital styling", str "no corporate look", str "no perfect geometry"] }),
  (str "creative-entertainment",
   { id := str "creative-entertainment",
     basePrompt := str "Entertainment logo, [MEDIA_ELEMENT], dynamic [COLOR_PALETTE], energetic design, entertainment industry standard, engaging visual",
     negativePrompts := [str "no boring design", str "no corporate styling", str "no muted colors"] }),
  (str "industry-real-estate",
   { id := str "industry-real-estate",
     basePrompt := str "Real estate logo, [PROPERTY_SYMBOL], trustworthy [PRIMARY_COLOR] palette, professional property design, real estate industry standard",
     negativePrompts := [str "no casual styling", str "no playful elements", str "no bright colors"] }),
  (str "industry-automotive",
   { id := str "industry-automotive",
     basePrompt := str "Automotive logo, [AUTO_ELEMENT], strong [PRIMARY_COLOR] palette, mechanical precision, automotive industry aesthetic, durable design",
     negativePrompts := [str "no delicate elements", str "no pastel colors", str "no organic shapes"] }),
  (str "industry-wellness",
   { id := str "industry-wellness",
     basePrompt := str "Health and wellness logo, [WELLNESS_SYMBOL], calming [PRIMARY_COLOR] palette, holistic design, wellness industry aesthetic, balanced composition",
     negativePrompts := [str "no medical symbols", str "no harsh colors", str "no rigid geometry"] }),
  (str "industry-nonprofit",
   { id := str "industry-nonprofit",
     basePrompt := str "Non-profit logo, [MISSION_SYMBOL], compassionate [PRIMARY_COLOR] palette, community-focused design, charitable organization aesthetic",
     negativePrompts := [str "no commercial styling", str "no luxury elements", str "no corporate coldness"] })]

/-- Map lookup by template id. -/
def lookupTemplate (id : Str) : Option ProfTemplate :=
  (professionalTemplates.find? (fun p => p.1 == id)).map Prod.snd

/-- ProfessionalPromptEngine.getStyleKeywords: the fixed style phrase
table with the default phrase Professional. -/
def getStyleKeywords (s : Str) : Str :=
  if s = str "modern" then str "Contemporary minimalist"
  else if s = str "minimal" then str "Clean minimal geometric"
  else if s = str "geometric" then str "Simple geometric flat"
  else if s = str "abstract" then str "Abstract artistic"
  else if s = str "corporate" then str "Professional corporate"
  else if s = str "tech" then str "Modern tech sleek"
  else if s = str "elegant" then str "Sophisticated elegant"
  else if s = str "bold" then str "Strong bold impactful"
  else if s = str "vintage" then str "Classic vintage retro"
  else if s = str "playful" then str "Creative playful dynamic"
  else if s = str "classic" then str "Traditional classic timeless"
  else if s = str "wordmark" then str "Typography-focused wordmark"
  else if s = str "lettermark" then str "Letter-based minimal"
  else if s = str "pictorial" then str "Symbolic pictorial"
  else if s = str "emblem" then str "Badge emblem"
  else if s = str "combination" then str "Combined symbol-text"
  else str "Professional"

/-- Colour clause of ProfessionalPromptEngine.getTechnicalRequirements. -/
def proColorDesc (cs : List Str) : Str :=
  if cs.length = 1 then cs.headD [] ++ str " color scheme"
  else str "using " ++ joinSep (str ", ") cs.dropLast ++ str " and " ++ cs.getLastD [] ++ str " colors"

/-- ProfessionalPromptEngine.getTechnicalRequirements. -/
def getTechnicalRequirements (opts : GenerationOptions) : Str :=
  let base := [str "flat vector design", str "scalable", str "professional quality",
               str "high contrast"]
  let withColors :=
    match opts.colors with
    | some cs => if cs.length > 0 then base ++ [proColorDesc cs] else base
    | none => base
  joinSep (str ", ") (withColors ++ (opts.customElements.getD []))

/-- ProfessionalPromptEngine.getDefaultNegatives. -/
def getDefaultNegatives : List Str :=
  [str "no realistic details", str "no photorealistic details", str "no shading detail",
   str "no gradients", str "no 3D effects", str "no complex textures"]

/-- ProfessionalPromptEngine.generateStructuredPrompt. -/
def generateStructuredPrompt (req : LogoRequest) (opts : GenerationOptions) : Str :=
  let parts := [getStyleKeywords (orElseStr opts.style (orElseStr req.style (str "modern"))),
                str "logo of",
                req.company ++ str ", " ++ req.prompt,
                getTechnicalRequirements opts,
                str "on white background"]
  let negatives := getDefaultNegatives ++ opts.negativePrompts.getD []
  jsTrim (joinSep (str " ") parts ++ str " --" ++ joinSep (str " --") negatives)

/-- ProfessionalPromptEngine.interpolateTemplate: literal global
find-and-replace of the placeholder tokens; the colour tokens are only
replaced when a nonempty colour list is present. -/
def interpolateTemplate (t : Str) (req : LogoRequest) (opts : GenerationOptions) : Str :=
  let r1 := replaceAll (str "[COMPANY]") req.company t
  let r2 := replaceAll (str "[PROMPT]") req.prompt r1
  let r3 := replaceAll (str "[STYLE]") (orElseStr opts.style (str "modern")) r2
  let r4 := replaceAll (str "[INDUSTRY]") (orElseStr opts.industry (str "business")) r3
  match opts.colors with
  | some cs =>
    if cs.length > 0 then
      let secondary :=
        match cs.get? 1 with
        | some c => if c.isEmpty then cs.headD [] else c
        | none => cs.headD []
      let r5 := replaceAll (str "[PRIMARY_COLOR]") (cs.headD []) r4
      let r6 := replaceAll (str "[SECONDARY_COLOR]") secondary r5
      replaceAll (str "[COLOR_PALETTE]") (joinSep (str " and ") cs) r6
    else r4
  | none => r4

/-- ProfessionalPromptEngine.generateFromTemplate: an unknown id throws
the template-not-found error before anything else happens. -/
def generateFromTemplate (req : LogoRequest) (opts : GenerationOptions) : Except Str Str :=
  let tid := opts.template.getD []
  match lookupTemplate tid with
  | none => .error (str "Template not found: " ++ tid)
  | some t =>
    let p := interpolateTemplate t.basePrompt req opts ++ getTechnicalRequirements opts
    let negatives := t.negativePrompts ++ opts.negativePrompts.getD []
    .ok (if negatives.isEmpty then p else p ++ str " --" ++ joinSep (str " --") negatives)

/-- ProfessionalPromptEngine.optimizePrompt. -/
def proOptimizePrompt (req : LogoRequest) (opts : GenerationOptions) : Except Str Str :=
  if truthyS opts.template then generateFromTemplate req opts
  else .ok (generateStructuredPrompt req opts)

/-! ## LogoGenerator (core/generator.ts)

The OpenAI client is an oracle indexed by the attempt number; the id
from generateId and the Date.now instant are arguments.  The second
component of the return value counts how many times the image API was
invoked. -/

/-- One image record of the API response. -/
structure ApiImage where
  url : Option Str
  revisedPrompt : Option Str
deriving DecidableEq

/-- The data array of the API response. -/
structure ApiResponse where
  data : List ApiImage
deriving DecidableEq

/-- LogoGenerator.calculateCost: the quality-tier price table. -/
def calculateCost (quality : Str) : ℚ :=
  if quality = str "standard" then 7 / 100
  else if quality = str "hd" then 19 / 100
  else 7 / 100

/-- LogoGenerator.createMetadata. -/
def createMetadata (req : LogoRequest) (finalPrompt : Str) (opts : GenerationOptions)
    (idv : Str) (now : Nat) : LogoMetadata :=
  { id := idv
    timestamp := now
    company := req.company
    originalPrompt := req.prompt
    finalPrompt := finalPrompt
    style := orElseStr opts.style (orElseStr req.style (str "modern"))
    industry := orOptStr opts.industry req.industry
    size := orElseStr opts.size (orElseStr req.size (str "1024x1024"))
    quality := orElseStr opts.quality (orElseStr req.quality (str "standard"))
    cost := calculateCost (orElseStr opts.quality (str "standard")) }

/-- Prompt selection of LogoGenerator.generate: the professional engine
runs only when a template was named; otherwise the basic engine. -/
def generatorPrompt (req : LogoRequest) (opts : GenerationOptions) : Except Str Str :=
  if truthyS opts.template then proOptimizePrompt req opts
  else .ok (basicOptimize req opts)

/-- LogoGenerator.generate: build the prompt, then submit the API
operation through the retry strategy.  Returns the outcome and the
number of API invocations. -/
def generate (req : LogoRequest) (opts : GenerationOptions)
    (api : Nat → Except JsError ApiResponse) (jit : Nat → ℚ)
    (idv : Str) (now : Nat) : Except JsError LogoResult × Nat :=
  match generatorPrompt req opts with
  | .error m => (.error ⟨false, m⟩, 0)
  | .ok p =>
    let op : Nat → Except JsError LogoResult := fun attempt =>
      match api attempt with
      | .error e => .error e
      | .ok resp =>
        match resp.data.head? with
        | none => .error ⟨false, str "No image generated from OpenAI"⟩
        | some img =>
          match img.url with
          | none => .error ⟨false, str "No URL returned from OpenAI API. Please try again."⟩
          | some u => .ok ⟨u, img.revisedPrompt, createMetadata req p opts idv now, none⟩
    let tr := execute op jit 3
    (tr.result, tr.invocations)

/-! ## CSV parsing (cli/commands/batch.ts parseCSV)

A row object starts with empty company and prompt strings; a field
assigned an out-of-range value becomes undefined, modelled by an absent
optional.  Kept rows are the truthy ones. -/

/-- The runtime shape of a parsed CSV row. -/
structure CsvRow where
  company : Option Str
  prompt : Option Str
  style : Option Str
  colors : Option (List Str)
  size : Option Str
  quality : Option Str
deriving DecidableEq

/-- The fresh row object with its two empty required fields. -/
def initRow : CsvRow := ⟨some [], some [], none, none, none, none⟩

/-- Strip one leading and one trailing double quote (the regex replace
of parseCSV). -/
def stripOuterQuotes (s : Str) : Str :=
  let s1 := match s with
    | c :: rest => if c = '"' then rest else s
    | [] => []
  match s1.getLast? with
  | some c => if c = '"' then s1.dropLast else s1
  | none => s1

/-- Per-cell processing: trim then strip quotes. -/
def csvValue (s : Str) : Str := stripOuterQuotes (jsTrim s)

/-- The switch over a lowercased header name. -/
def applyField (row : CsvRow) (header : Str) (value : Option Str) : CsvRow :=
  let h := jsToLower header
  if h = str "company" then { row with company := value }
  else if h = str "prompt" ∨ h = str "description" then { row with prompt := value }
  else if h = str "style" then { row with style := value }
  else if h = str "colors" then
    { row with colors :=
        match value with
        | some v => if v.isEmpty then none else some ((jsSplit (str ";") v).map jsTrim)
        | none => none }
  else if h = str "size" then { row with size := value }
  else if h = str "quality" then { row with quality := value }
  else row

/-- Fold the header list over one row of processed values. -/
def parseRow (headers : List Str) (values : List Str) : CsvRow :=
  (List.range headers.length).foldl
    (fun row idx => applyField row (headers.getD idx []) (values.get? idx)) initRow

/-- The keep test: company and prompt both truthy. -/
def truthyRow (row : CsvRow) : Bool := truthyS row.company && truthyS row.prompt

/-- parseCSV from cli/commands/batch.ts. -/
def parseCSV (content : Str) : List CsvRow :=
  let lines := jsSplit (str "\n") (jsTrim content)
  let headers := (jsSplit (str ",") (lines.headD [])).map jsTrim
  (lines.tail.map (fun line => parseRow headers ((jsSplit (str ",") line).map csvValue))).filter
    truthyRow

/-! ## Batch processing (cli/commands/batch.ts processBatch)

Each limited task runs generate and the optional download and settles
exactly one request; the combined outcome of one request is an oracle
over the submission index.  Completion order is scheduler dependent; the
model settles requests in submission order, which fixes the order inside
the two collections but not their membership or the counters. -/

/-- FailedGeneration from core/types.ts. -/
structure FailedGeneration where
  request : LogoRequest
  error : JsError
deriving DecidableEq

/-- BatchStats from core/types.ts. -/
structure BatchStats where
  total : Nat
  successful : Nat
  failed : Nat
  totalCost : ℚ
  duration : Nat
deriving DecidableEq

/-- BatchResult from core/types.ts. -/
structure BatchResult where
  successful : List LogoResult
  failed : List FailedGeneration
  stats : BatchStats
deriving DecidableEq

/-- Settling of one request inside its limited task. -/
def batchStep (outcome : Nat → LogoRequest → Except JsError LogoResult)
    (acc : BatchResult) (ir : Nat × LogoRequest) : BatchResult :=
  match outcome ir.1 ir.2 with
  | .ok res =>
    { acc with
      successful := acc.successful ++ [res],
      stats := { acc.stats with
                 successful := acc.stats.successful + 1,
                 totalCost := acc.stats.totalCost + res.metadata.cost } }
  | .error e =>
    { acc with
      failed := acc.failed ++ [⟨ir.2, e⟩],
      stats := { acc.stats with failed := acc.stats.failed + 1 } }

/-- processBatch: stats.total is the request count, set up front; every
request lands in exactly one collection. -/
def processBatch (requests : List LogoRequest)
    (outcome : Nat → LogoRequest → Except JsError LogoResult) : BatchResult :=
  requests.enum.foldl (batchStep outcome) ⟨[], [], ⟨requests.length, 0, 0, 0, 0⟩⟩

/-- The request of the end-to-end scenario of the spec. -/
def acmeRequest : LogoRequest := { company := str "Acme", prompt := str "bold new idea" }

/-- A concrete metadata record for cache scenarios. -/
def sampleMetadata : LogoMetadata :=
  ⟨str "logo_1", 0, str "Acme", str "p", str "f", str "modern", none,
   str "1024x1024", str "standard", 7 / 100⟩

/-- A concrete result record for cache scenarios. -/
def sampleResult : LogoResult := ⟨str "https://img.example/logo.png", none, sampleMetadata, none⟩

/-- A concrete cached entry with a chosen expiry. -/
def sampleCached (exp : Nat) : CachedLogo := ⟨sampleResult, exp, false⟩

/-- A concrete parsable cache file. -/
def sampleFile (name : Str) (exp sz mt : Nat) : FileEntry := ⟨name, some (sampleCached exp), sz, mt⟩

/-- Bracket characters. -/
def noBrk (s : Str) : Bool := s.all (fun c => !(c == '[') && !(c == ']'))

/-- Tail of a placeholder token: bracket-free body closed by a bracket. -/
def bracketTail : Str → Bool
  | [] => false
  | [c] => c == ']'
  | c :: c2 :: rest => !(c == '[') && !(c == ']') && bracketTail (c2 :: rest)

/-- A placeholder token: an opening bracket, a bracket-free body, a
closing bracket. -/
def bracketTokenB (t : Str) : Bool :=
  match t with
  | c :: rest => c == '[' && bracketTail rest
  | [] => false

/-- The placeholder patterns interpolateTemplate can ever rewrite. -/
def interpolationPatterns : List Str :=
  [str "[COMPANY]", str "[PROMPT]", str "[STYLE]", str "[INDUSTRY]",
   str "[PRIMARY_COLOR]", str "[SECONDARY_COLOR]", str "[COLOR_PALETTE]"]

/-! # Lemmas -/

theorem leadsB_refl_append (p r : Str) : leadsB p (p ++ r) = true := by
  induction p with
  | nil => rfl
  | cons a as ih => simp [leadsB, ih]

theorem leadsB_decomp {p s : Str} (h : leadsB p s = true) : s = p ++ s.drop p.length := by
  induction p generalizing s with
  | nil => simp
  | cons a as ih =>
    cases s with
    | nil => simp [leadsB] at h
    | cons b bs =>
      simp only [leadsB, Bool.and_eq_true, beq_iff_eq] at h
      obtain ⟨rfl, h2⟩ := h
      have := ih h2
      simpa [List.length_cons, List.drop_succ_cons] using congrArg (a :: ·) this

theorem isSubstr_self_append (t y : Str) : isSubstr t (t ++ y) = true := by
  cases t with
  | nil =>
    cases y with
    | nil => rfl
    | cons c cs => simp [isSubstr, leadsB]
  | cons c ts =>
    simp only [isSubstr, Bool.or_eq_true]
    exact Or.inl (by simpa using leadsB_refl_append (c :: ts) y)

theorem isSubstr_parts {t s : Str} : isSubstr t s = true ↔ ∃ x y, s = x ++ t ++ y := by
  constructor
  · intro h
    induction s with
    | nil =>
      cases t with
      | nil => exact ⟨[], [], rfl⟩
      | cons c ts => simp [isSubstr, leadsB] at h
    | cons c rest ih =>
      rcases Bool.or_eq_true _ _ |>.mp (by simpa [isSubstr] using h) with h1 | h2
      · exact ⟨[], (c :: rest).drop t.length, by simpa using leadsB_decomp h1⟩
      · obtain ⟨x, y, hxy⟩ := ih h2
        exact ⟨c :: x, y, by simp [hxy]⟩
  · rintro ⟨x, y, rfl⟩
    induction x with
    | nil => simpa using isSubstr_self_append t y
    | cons c xs ih =>
      simp only [List.cons_append, isSubstr, Bool.or_eq_true]
      exact Or.inr (by simpa [List.append_assoc] using ih)

theorem splitFirst_decomp {pat : Str} : ∀ {s pre post : Str},
    splitFirst pat s = some (pre, post) → s = pre ++ pat ++ post := by
  intro s
  induction s with
  | nil => intro pre post h; simp [splitFirst] at h
  | cons c rest ih =>
    intro pre post h
    by_cases hl : leadsB pat (c :: rest) = true
    · simp only [splitFirst, hl, if_true] at h
      obtain ⟨rfl, rfl⟩ := by simpa using h.symm
      simpa using leadsB_decomp hl
    · simp only [splitFirst, hl, if_false, Bool.false_eq_true] at h
      cases hsp : splitFirst pat rest with
      | none => rw [hsp] at h; simp at h
      | some pp =>
        obtain ⟨pre2, post2⟩ := pp
        rw [hsp] at h
        simp only [Option.some.injEq, Prod.mk.injEq] at h
        obtain ⟨rfl, rfl⟩ := h
        simpa using congrArg (c :: ·) (ih hsp)

theorem splitFirst_post_lt {pat s pre post : Str} (hp : pat ≠ [])
    (h : splitFirst pat s = some (pre, post)) : post.length < s.length := by
  have hd := splitFirst_decomp h
  have hlen : 0 < pat.length := List.length_pos.mpr hp
  subst hd
  simp only [List.length_append]
  omega

theorem getElem_app_left {α : Type} {l₁ l₂ : List α} : ∀ {i : Nat}, i < l₁.length →
    (l₁ ++ l₂)[i]? = l₁[i]? := by
  induction l₁ with
  | nil => intro i h; simp at h
  | cons a as ih =>
    intro i h
    cases i with
    | zero => simp
    | succ n =>
      simp only [List.cons_append, List.getElem?_cons_succ]
      exact ih (by simpa using h)

theorem getElem_app_right {α : Type} {l₁ l₂ : List α} : ∀ (i : Nat),
    (l₁ ++ l₂)[l₁.length + i]? = l₂[i]? := by
  induction l₁ with
  | nil => intro i; simp
  | cons a as ih =>
    intro i
    have : as.length + 1 + i = (as.length + i) + 1 := by omega
    simp only [List.cons_append, List.length_cons, this, List.getElem?_cons_succ]
    exact ih i

theorem getElem_none_of_le {α : Type} {l : List α} : ∀ {i : Nat}, l.length ≤ i → l[i]? = none := by
  induction l with
  | nil => intro i _; simp
  | cons a as ih =>
    intro i h
    cases i with
    | zero => simp at h
    | succ n => simpa using ih (by simpa using h)

theorem mem_of_getElem {α : Type} {l : List α} : ∀ {i : Nat} {a : α}, l[i]? = some a → a ∈ l := by
  induction l with
  | nil => intro i a h; simp at h
  | cons b bs ih =>
    intro i a h
    cases i with
    | zero => simp at h; simp [h]
    | succ n => exact List.mem_cons_of_mem _ (ih (by simpa using h))

theorem eq_of_getElem {α : Type} : ∀ {l₁ l₂ : List α}, l₁.length = l₂.length →
    (∀ m, m < l₁.length → l₁[m]? = l₂[m]?) → l₁ = l₂ := by
  intro l₁
  induction l₁ with
  | nil => intro l₂ hl _; cases l₂ with | nil => rfl | cons => simp at hl
  | cons a as ih =>
    intro l₂ hl h
    cases l₂ with
    | nil => simp at hl
    | cons b bs =>
      have h0 := h 0 (by simp)
      simp only [List.getElem?_cons_zero, Option.some.injEq] at h0
      subst h0
      have hlen2 : as.length = bs.length := by simpa using hl
      have := ih hlen2 (fun m hm => by
        have := h (m + 1) (by simpa using Nat.succ_lt_succ hm)
        simpa using this)
      rw [this]

/-! Facts about placeholder tokens -/

theorem bracketTail_decomp : ∀ {s : Str}, bracketTail s = true →
    ∃ body, s = body ++ [']'] ∧ noBrk body = true := by
  intro s
  induction s with
  | nil => intro h; simp [bracketTail] at h
  | cons c rest ih =>
    intro h
    cases rest with
    | nil =>
      simp only [bracketTail, beq_iff_eq] at h
      exact ⟨[], by simp [h], rfl⟩
    | cons c2 rest2 =>
      simp only [bracketTail, Bool.and_eq_true] at h
      obtain ⟨⟨h1, h2⟩, h3⟩ := h
      obtain ⟨body, hb, hnb⟩ := ih h3
      refine ⟨c :: body, by simp [hb], ?_⟩
      simp [noBrk, List.all_cons] at hnb ⊢
      exact ⟨⟨by simpa using h1, by simpa using h2⟩, hnb⟩

theorem bracketTokenB_decomp {t : Str} (h : bracketTokenB t = true) :
    ∃ body, t = '[' :: body ++ [']'] ∧ noBrk body = true := by
  cases t with
  | nil => simp [bracketTokenB] at h
  | cons c rest =>
    simp only [bracketTokenB, Bool.and_eq_true, beq_iff_eq] at h
    obtain ⟨rfl, h2⟩ := h
    obtain ⟨body, hb, hnb⟩ := bracketTail_decomp h2
    exact ⟨body, by simp [hb], hnb⟩

theorem bracket_len {t : Str} (h : bracketTokenB t = true) : 2 ≤ t.length := by
  obtain ⟨body, rfl, _⟩ := bracketTokenB_decomp h
  simp

theorem bracket_ne_nil {t : Str} (h : bracketTokenB t = true) : t ≠ [] := by
  obtain ⟨body, rfl, _⟩ := bracketTokenB_decomp h
  exact List.cons_ne_nil _ _

theorem bracket_head {t : Str} (h : bracketTokenB t = true) : t[0]? = some '[' := by
  obtain ⟨body, rfl, _⟩ := bracketTokenB_decomp h
  simp

theorem bracket_last {t : Str} (h : bracketTokenB t = true) : t[t.length - 1]? = some ']' := by
  obtain ⟨body, rfl, _⟩ := bracketTokenB_decomp h
  have h1 : ('[' :: body ++ [']'] : Str) = ('[' :: body) ++ [']'] := by simp
  have h2 : ('[' :: body ++ [']'] : Str).length - 1 = ('[' :: body).length := by simp
  rw [h1, h2]
  have := @getElem_app_right Char ('[' :: body) [']'] 0
  simpa using this

theorem bracket_interior {t : Str} (h : bracketTokenB t = true) :
    ∀ m c, 0 < m → m + 1 < t.length → t[m]? = some c → c ≠ '[' ∧ c ≠ ']' := by
  obtain ⟨body, rfl, hnb⟩ := bracketTokenB_decomp h
  intro m c hm hlt hget
  obtain ⟨m', rfl⟩ : ∃ m', m = m' + 1 := ⟨m - 1, by omega⟩
  have hlen : ('[' :: body ++ [']']).length = body.length + 2 := by simp
  have hm' : m' < body.length := by
    rw [hlen] at hlt; omega
  have : ('[' :: (body ++ [']']))[m' + 1]? = (body ++ [']'])[m']? := by
    simp [List.getElem?_cons_succ]
  rw [show ('[' :: body ++ [']'] : Str) = '[' :: (body ++ [']']) by simp, this] at hget
  rw [getElem_app_left hm'] at hget
  have hmem : c ∈ body := mem_of_getElem hget
  have := (List.all_eq_true.mp hnb) c hmem
  simp only [Bool.and_eq_true, Bool.not_eq_true', beq_eq_false_iff_ne, ne_eq] at this
  exact this

theorem getElem_mid {x t y : Str} {m : Nat} (hm : m < t.length) :
    (x ++ t ++ y)[x.length + m]? = t[m]? := by
  rw [List.append_assoc, getElem_app_right, getElem_app_left hm]

/-- Two distinct placeholder tokens cannot occupy overlapping positions
of a common string. -/
theorem bracket_no_overlap {t p : Str} (ht : bracketTokenB t = true)
    (hp : bracketTokenB p = true) (hne : t ≠ p) {x y pre post : Str}
    (he : x ++ t ++ y = pre ++ p ++ post) :
    x.length + t.length ≤ pre.length ∨ pre.length + p.length ≤ x.length := by
  by_contra hcon
  push_neg at hcon
  obtain ⟨h1, h2⟩ := hcon
  -- h1 : pre.length < x.length + t.length, h2 : x.length < pre.length + p.length
  have hts : ∀ m, m < t.length → (x ++ t ++ y)[x.length + m]? = t[m]? := fun m hm => getElem_mid hm
  have hps : ∀ m, m < p.length → (x ++ t ++ y)[pre.length + m]? = p[m]? := fun m hm => by
    rw [he]; exact getElem_mid hm
  rcases Nat.lt_trichotomy x.length pre.length with hj | hj | hj
  · -- the token t starts first and p starts inside it
    have hm : pre.length - x.length < t.length := by omega
    have hx : (x ++ t ++ y)[x.length + (pre.length - x.length)]? = t[pre.length - x.length]? :=
      hts _ hm
    have hp0 : (x ++ t ++ y)[pre.length + 0]? = p[0]? := hps 0 (by have := bracket_len hp; omega)
    rw [bracket_head hp] at hp0
    have hxx : x.length + (pre.length - x.length) = pre.length + 0 := by omega
    rw [hxx, hp0] at hx
    -- t has an opening bracket strictly inside or at its end
    rcases Nat.lt_or_ge ((pre.length - x.length) + 1) t.length with hin | hend
    · have := bracket_interior ht _ '[' (by omega) hin hx.symm
      exact this.1 rfl
    · have hmm : pre.length - x.length = t.length - 1 := by omega
      rw [hmm] at hx
      rw [bracket_last ht] at hx
      simp at hx
  · -- both tokens start at the same position
    have hsame : ∀ m, m < t.length → m < p.length → t[m]? = p[m]? := fun m hmt hmp => by
      have a1 := hts m hmt
      have a2 := hps m hmp
      rw [hj] at a1
      rw [a1] at a2
      exact a2
    rcases Nat.lt_trichotomy t.length p.length with hl | hl | hl
    · have hmt : t.length - 1 < t.length := by have := bracket_len ht; omega
      have hmp : t.length - 1 < p.length := by omega
      have := hsame _ hmt hmp
      rw [bracket_last ht] at this
      have hint := bracket_interior hp _ ']' (by have := bracket_len ht; omega)
        (by have := bracket_len ht; omega) this.symm
      exact hint.2 rfl
    · apply hne
      apply eq_of_getElem hl
      intro m hm
      exact hsame m hm (by omega)
    · have hmp : p.length - 1 < p.length := by have := bracket_len hp; omega
      have hmt : p.length - 1 < t.length := by omega
      have := hsame _ hmt hmp
      rw [bracket_last hp] at this
      have hint := bracket_interior ht _ ']' (by have := bracket_len hp; omega)
        (by have := bracket_len hp; omega) this
      exact hint.2 rfl
  · -- the token p starts first and t starts inside it
    have hm : x.length - pre.length < p.length := by omega
    have hx : (x ++ t ++ y)[pre.length + (x.length - pre.length)]? = p[x.length - pre.length]? :=
      hps _ hm
    have ht0 : (x ++ t ++ y)[x.length + 0]? = t[0]? := hts 0 (by have := bracket_len ht; omega)
    rw [bracket_head ht] at ht0
    have hxx : pre.length + (x.length - pre.length) = x.length + 0 := by omega
    rw [hxx, ht0] at hx
    rcases Nat.lt_or_ge ((x.length - pre.length) + 1) p.length with hin | hend
    · have := bracket_interior hp _ '[' (by omega) hin hx.symm
      exact this.1 rfl
    · have hmm : x.length - pre.length = p.length - 1 := by omega
      rw [hmm] at hx
      rw [bracket_last hp] at hx
      simp at hx

/-- Survival of a distinct placeholder token through global replacement. -/
theorem replaceAllAux_survives {t p : Str} (ht : bracketTokenB t = true)
    (hp : bracketTokenB p = true) (hne : t ≠ p) (r : Str) :
    ∀ fuel s, s.length ≤ fuel → (∃ x y, s = x ++ t ++ y) →
      ∃ x y, replaceAllAux p r fuel s = x ++ t ++ y := by
  intro fuel
  induction fuel with
  | zero => intro s hs hex; simpa [replaceAllAux] using hex
  | succ n ih =>
    intro s hs hex
    cases hsp : splitFirst p s with
    | none => simpa [replaceAllAux, hsp] using hex
    | some pp =>
      obtain ⟨pre, post⟩ := pp
      obtain ⟨x, y, rfl⟩ := hex
      have hdec := splitFirst_decomp hsp
      have hno := bracket_no_overlap ht hp hne hdec
      simp only [replaceAllAux, hsp]
      rcases hno with hleft | hright
      · -- t lies inside pre
        have htake : x ++ t = pre.take (x.length + t.length) := by
          have e1 : ((x ++ t) ++ y).take (x ++ t).length = x ++ t := List.take_left _ _
          have e2 : (x ++ t ++ y).take (x.length + t.length) = x ++ t := by
            simpa [List.length_append] using e1
          rw [hdec, List.append_assoc] at e2
          rw [List.take_append_of_le_length hleft] at e2
          exact e2.symm
        have hpre : pre = (x ++ t) ++ pre.drop (x.length + t.length) := by
          conv_lhs => rw [← List.take_append_drop (x.length + t.length) pre]
          rw [← htake]
        refine ⟨x, pre.drop (x.length + t.length) ++ r ++ replaceAllAux p r n post, ?_⟩
        conv_lhs => rw [hpre]
        simp [List.append_assoc]
      · -- t lies inside post
        have hdrop : post = x.drop (pre.length + p.length) ++ t ++ y := by
          have e1 : ((pre ++ p) ++ post).drop (pre ++ p).length = post := List.drop_left _ _
          have e2 : (pre ++ p ++ post).drop (pre.length + p.length) = post := by
            simpa [List.length_append] using e1
          rw [← hdec] at e2
          rw [List.append_assoc, List.drop_append_of_le_length hright] at e2
          rw [← e2, List.append_assoc]
        have hpl : post.length ≤ n := by
          have := splitFirst_post_lt (bracket_ne_nil hp) hsp
          omega
        obtain ⟨x2, y2, hxy2⟩ := ih post hpl ⟨_, _, hdrop⟩
        refine ⟨pre ++ r ++ x2, y2, ?_⟩
        rw [hxy2]
        simp [List.append_assoc]

/-- Survival through replaceAll, phrased with the substring test. -/
theorem replaceAll_preserves {t p : Str} (ht : bracketTokenB t = true)
    (hp : bracketTokenB p = true) (hne : t ≠ p) (r s : Str)
    (h : isSubstr t s = true) : isSubstr t (replaceAll p r s) = true := by
  rw [isSubstr_parts] at h ⊢
  exact replaceAllAux_survives ht hp hne r s.length s le_rfl h

/-! Lemmas on the default JavaScript sort order -/

theorem lexle_cons_iff {a b : Nat} {as bs : List Nat} :
    lexLeUnits (a :: as) (b :: bs) = true ↔ a < b ∨ (a = b ∧ lexLeUnits as bs = true) := by
  simp only [lexLeUnits]
  split_ifs with h1 h2
  · simp [h1]
  · constructor
    · intro h; simp at h
    · intro h; rcases h with h | ⟨h, _⟩ <;> omega
  · have hab : a = b := by omega
    simp [hab, h2]

theorem lexLeUnits_total : ∀ x y : List Nat, lexLeUnits x y = true ∨ lexLeUnits y x = true := by
  intro x
  induction x with
  | nil => intro y; left; rfl
  | cons a as ih =>
    intro y
    cases y with
    | nil => right; rfl
    | cons b bs =>
      rcases Nat.lt_trichotomy a b with h | h | h
      · left; rw [lexle_cons_iff]; exact Or.inl h
      · subst h
        rcases ih bs with h2 | h2
        · left; rw [lexle_cons_iff]; exact Or.inr ⟨rfl, h2⟩
        · right; rw [lexle_cons_iff]; exact Or.inr ⟨rfl, h2⟩
      · right; rw [lexle_cons_iff]; exact Or.inl h

theorem lexLeUnits_trans : ∀ x y z : List Nat,
    lexLeUnits x y = true → lexLeUnits y z = true → lexLeUnits x z = true := by
  intro x
  induction x with
  | nil => intro y z _ _; rfl
  | cons a as ih =>
    intro y z hxy hyz
    cases y with
    | nil => simp [lexLeUnits] at hxy
    | cons b bs =>
      cases z with
      | nil => simp [lexLeUnits] at hyz
      | cons c cs =>
        rw [lexle_cons_iff] at hxy hyz ⊢
        rcases hxy with h1 | ⟨h1, h1r⟩ <;> rcases hyz with h2 | ⟨h2, h2r⟩
        · exact Or.inl (by omega)
        · exact Or.inl (by omega)
        · exact Or.inl (by omega)
        · exact Or.inr ⟨by omega, ih bs cs h1r h2r⟩

theorem lexLeUnits_antisymm : ∀ x y : List Nat,
    lexLeUnits x y = true → lexLeUnits y x = true → x = y := by
  intro x
  induction x with
  | nil =>
    intro y _ hyx
    cases y with
    | nil => rfl
    | cons b bs => simp [lexLeUnits] at hyx
  | cons a as ih =>
    intro y hxy hyx
    cases y with
    | nil => simp [lexLeUnits] at hxy
    | cons b bs =>
      rw [lexle_cons_iff] at hxy hyx
      rcases hxy with h1 | ⟨h1, h1r⟩ <;> rcases hyx with h2 | ⟨h2, h2r⟩ <;> try omega
      rw [h1, ih bs h1r h2r]

theorem char_valid (c : Char) : c.toNat < 55296 ∨ (57343 < c.toNat ∧ c.toNat < 1114112) :=
  c.valid

theorem char_toNat_inj {c d : Char} (h : c.toNat = d.toNat) : c = d :=
  Char.eq_of_val_eq (UInt32.eq_of_val_eq (Fin.eq_of_val_eq h))

theorem utf16Char_ne_nil (c : Char) : utf16Char c ≠ [] := by
  by_cases h : c.toNat < 65536 <;> simp [utf16Char, h]

theorem utf16_inj : ∀ {a b : Str}, utf16Units a = utf16Units b → a = b := by
  intro a
  induction a with
  | nil =>
    intro b h
    cases b with
    | nil => rfl
    | cons d ds =>
      exfalso
      simp only [utf16Units, List.flatMap_nil, List.flatMap_cons] at h
      exact utf16Char_ne_nil d (List.append_eq_nil.mp h.symm).1
  | cons c cs ih =>
    intro b h
    cases b with
    | nil =>
      exfalso
      simp only [utf16Units, List.flatMap_nil, List.flatMap_cons] at h
      exact utf16Char_ne_nil c (List.append_eq_nil.mp h).1
    | cons d ds =>
      simp only [utf16Units, List.flatMap_cons] at h
      have hvc := char_valid c
      have hvd := char_valid d
      by_cases hc : c.toNat < 65536 <;> by_cases hd : d.toNat < 65536 <;>
        simp only [utf16Char, hc, hd, if_true, if_false, List.singleton_append,
          List.cons_append, List.cons.injEq, List.nil_append] at h
      · obtain ⟨h1, h2⟩ := h
        rw [char_toNat_inj h1, ih h2]
      · exfalso
        obtain ⟨h1, -⟩ := h
        have hdiv : (d.toNat - 65536) / 1024 < 1024 := by omega
        omega
      · exfalso
        obtain ⟨h1, -⟩ := h
        have hdiv : (c.toNat - 65536) / 1024 < 1024 := by omega
        omega
      · obtain ⟨h1, h2, h3⟩ := h
        have hcd : c.toNat = d.toNat := by omega
        rw [char_toNat_inj hcd, ih h3]

instance : IsTotal Str jsLe := ⟨fun a b => lexLeUnits_total _ _⟩

instance : IsTrans Str jsLe := ⟨fun _ _ _ => lexLeUnits_trans _ _ _⟩

instance : IsAntisymm Str jsLe :=
  ⟨fun _ _ h1 h2 => utf16_inj (lexLeUnits_antisymm _ _ h1 h2)⟩

/-- Sorting two permutations of the same color list gives equal results. -/
theorem jsSortStrings_perm_eq {l1 l2 : List Str} (h : l1.Perm l2) :
    jsSortStrings l1 = jsSortStrings l2 :=
  List.eq_of_perm_of_sorted
    ((List.perm_insertionSort jsLe l1).trans (h.trans (List.perm_insertionSort jsLe l2).symm))
    (List.sorted_insertionSort jsLe l1) (List.sorted_insertionSort jsLe l2)

theorem wordToHex_len (w : Nat) : (wordToHex w).length = 8 := rfl

theorem sha256Hex_len (msg : List Nat) : (sha256Hex msg).length = 64 := by
  simp [sha256Hex, List.length_append, wordToHex_len]

/-! Lemmas on the retry loop -/

theorem executeAux_ok {α : Type} {op : Nat → Except JsError α} {jit : Nat → ℚ}
    {maxRetries attempt r : Nat} {last : Option JsError} {v : α} (h : op attempt = .ok v) :
    executeAux op jit maxRetries attempt (r + 1) last = ⟨.ok v, 1, []⟩ := by
  simp [executeAux, h]

theorem executeAux_retry {α : Type} {op : Nat → Except JsError α} {jit : Nat → ℚ}
    {maxRetries attempt r : Nat} {last : Option JsError} {e : JsError}
    (h : op attempt = .error e)
    (hcase : isRateLimitError e = true ∨ (isRetryableError e = true ∧ attempt < maxRetries)) :
    executeAux op jit maxRetries attempt (r + 1) last =
      ⟨(executeAux op jit maxRetries (attempt + 1) r (some e)).result,
       (executeAux op jit maxRetries (attempt + 1) r (some e)).invocations + 1,
       (attempt, calculateBackoffDelay attempt (jit attempt)) ::
         (executeAux op jit maxRetries (attempt + 1) r (some e)).sleeps⟩ := by
  rcases hcase with h1 | ⟨h1, h2⟩
  · simp [executeAux, h, h1]
  · by_cases hrl : isRateLimitError e = true
    · simp [executeAux, h, hrl]
    · simp [executeAux, h, hrl, h1, h2]

theorem executeAux_fatal {α : Type} {op : Nat → Except JsError α} {jit : Nat → ℚ}
    {maxRetries attempt r : Nat} {last : Option JsError} {e : JsError}
    (h : op attempt = .error e) (h1 : isRateLimitError e = false)
    (h2 : ¬(isRetryableError e = true ∧ attempt < maxRetries)) :
    executeAux op jit maxRetries attempt (r + 1) last = ⟨.error e, 1, []⟩ := by
  simp only [executeAux, h]
  rw [if_neg (by simp [h1]), if_neg h2]

theorem executeAux_sleeps_spec {α : Type} (op : Nat → Except JsError α) (jit : Nat → ℚ)
    (mr : Nat) : ∀ (remaining attempt : Nat) (last : Option JsError) (p : Nat × ℚ),
    p ∈ (executeAux op jit mr attempt remaining last).sleeps →
      attempt ≤ p.1 ∧ p.2 = calculateBackoffDelay p.1 (jit p.1) := by
  intro remaining
  induction remaining with
  | zero => intro attempt last p hp; simp [executeAux] at hp
  | succ n ih =>
    intro attempt last p hp
    cases hop : op attempt with
    | ok v => rw [executeAux_ok hop] at hp; simp at hp
    | error e =>
      by_cases hrl : isRateLimitError e = true
      · rw [executeAux_retry hop (Or.inl hrl)] at hp
        rcases List.mem_cons.mp hp with h | h
        · subst h; exact ⟨le_refl _, rfl⟩
        · have := ih (attempt + 1) (some e) p h
          exact ⟨by omega, this.2⟩
      · by_cases hre : isRetryableError e = true ∧ attempt < mr
        · rw [executeAux_retry hop (Or.inr hre)] at hp
          rcases List.mem_cons.mp hp with h | h
          · subst h; exact ⟨le_refl _, rfl⟩
          · have := ih (attempt + 1) (some e) p h
            exact ⟨by omega, this.2⟩
        · rw [executeAux_fatal hop (Bool.eq_false_iff.mpr hrl) hre] at hp
          simp at hp

theorem executeAux_sleeps_chain {α : Type} (op : Nat → Except JsError α) (jit : Nat → ℚ)
    (mr : Nat) : ∀ (remaining attempt : Nat) (last : Option JsError),
    List.Chain' (fun p q : Nat × ℚ => p.1 < q.1)
      (executeAux op jit mr attempt remaining last).sleeps := by
  intro remaining
  induction remaining with
  | zero => intro attempt last; simp [executeAux]
  | succ n ih =>
    intro attempt last
    cases hop : op attempt with
    | ok v => rw [executeAux_ok hop]; simp
    | error e =>
      by_cases hrl : isRateLimitError e = true
      · rw [executeAux_retry hop (Or.inl hrl)]
        refine List.chain'_cons'.mpr ⟨?_, ih (attempt + 1) (some e)⟩
        intro q hq
        have := executeAux_sleeps_spec op jit mr n (attempt + 1) (some e) q
          (List.mem_of_mem_head? hq)
        have h1 := this.1
        omega
      · by_cases hre : isRetryableError e = true ∧ attempt < mr
        · rw [executeAux_retry hop (Or.inr hre)]
          refine List.chain'_cons'.mpr ⟨?_, ih (attempt + 1) (some e)⟩
          intro q hq
          have := executeAux_sleeps_spec op jit mr n (attempt + 1) (some e) q
            (List.mem_of_mem_head? hq)
          have h1 := this.1
          omega
        · rw [executeAux_fatal hop (Bool.eq_false_iff.mpr hrl) hre]
          simp

/-! Lemmas on the cache tiers -/

theorem memLookup_insert (k : Str) (c : CachedLogo) :
    ∀ m, memLookup k (memInsert k c m) = some c := by
  intro m
  induction m with
  | nil => simp [memInsert, memLookup]
  | cons kv rest ih =>
    obtain ⟨k2, v2⟩ := kv
    by_cases h : k2 = k
    · simp [memInsert, h, memLookup]
    · simp [memInsert, h, memLookup, ih]

theorem memLookup_filter_insert (k : Str) (c : CachedLogo) (p : Str × CachedLogo → Bool)
    (hpc : p (k, c) = true) :
    ∀ m, memLookup k ((memInsert k c m).filter p) = some c := by
  intro m
  induction m with
  | nil => simp [memInsert, List.filter_cons, hpc, memLookup]
  | cons kv rest ih =>
    obtain ⟨k2, v2⟩ := kv
    by_cases h : k2 = k
    · subst h
      simp [memInsert, List.filter_cons, hpc, memLookup]
    · by_cases hp2 : p (k2, v2) = true
      · simp [memInsert, h, List.filter_cons, hp2, memLookup, ih]
      · simp [memInsert, h, List.filter_cons, hp2, ih]

theorem fileLookup_mem {k : Str} : ∀ {l : List FileEntry} {fe : FileEntry},
    fileLookup k l = some fe → fe ∈ l ∧ fe.name = k := by
  intro l
  induction l with
  | nil => intro fe h; simp [fileLookup] at h
  | cons f rest ih =>
    intro fe h
    by_cases hn : f.name = k
    · simp only [fileLookup, hn, if_true, Option.some.injEq] at h
      subst h
      exact ⟨List.mem_cons_self _ _, hn⟩
    · simp only [fileLookup, hn, if_false] at h
      obtain ⟨h1, h2⟩ := ih h
      exact ⟨List.mem_cons_of_mem _ h1, h2⟩

theorem mem_fileWrite {e : FileEntry} : ∀ {l : List FileEntry} {fe : FileEntry},
    fe ∈ fileWrite e l → fe = e ∨ fe ∈ l := by
  intro l
  induction l with
  | nil => intro fe h; simp [fileWrite] at h; exact Or.inl h
  | cons f rest ih =>
    intro fe h
    by_cases hn : f.name = e.name
    · simp only [fileWrite, hn, if_true] at h
      rcases List.mem_cons.mp h with h1 | h1
      · exact Or.inl h1
      · exact Or.inr (List.mem_cons_of_mem _ h1)
    · simp only [fileWrite, hn, if_false] at h
      rcases List.mem_cons.mp h with h1 | h1
      · exact Or.inr (by simp [h1])
      · rcases ih h1 with h2 | h2
        · exact Or.inl h2
        · exact Or.inr (List.mem_cons_of_mem _ h2)

theorem self_mem_fileWrite (e : FileEntry) : ∀ l, e ∈ fileWrite e l := by
  intro l
  induction l with
  | nil => simp [fileWrite]
  | cons f rest ih =>
    by_cases hn : f.name = e.name
    · simp [fileWrite, hn]
    · simp only [fileWrite, hn, if_false]
      exact List.mem_cons_of_mem _ ih

theorem fileWrite_nodupNames {e : FileEntry} : ∀ {l : List FileEntry},
    (l.map FileEntry.name).Nodup → ((fileWrite e l).map FileEntry.name).Nodup := by
  intro l
  induction l with
  | nil => intro _; simp [fileWrite]
  | cons f rest ih =>
    intro h
    simp only [List.map_cons, List.nodup_cons] at h
    obtain ⟨h1, h2⟩ := h
    by_cases hn : f.name = e.name
    · simp only [fileWrite, hn, if_true, List.map_cons, List.nodup_cons]
      exact ⟨by rw [← hn]; exact h1, h2⟩
    · simp only [fileWrite, hn, if_false, List.map_cons, List.nodup_cons]
      refine ⟨?_, ih h2⟩
      intro hmem
      obtain ⟨fe, hfe, hfn⟩ := List.mem_map.mp hmem
      rcases mem_fileWrite hfe with h3 | h3
      · subst h3; exact hn hfn.symm
      · exact h1 (List.mem_map.mpr ⟨fe, h3, hfn⟩)

theorem names_unique : ∀ {l : List FileEntry}, (l.map FileEntry.name).Nodup →
    ∀ {f1 f2 : FileEntry}, f1 ∈ l → f2 ∈ l → f1.name = f2.name → f1 = f2 := by
  intro l
  induction l with
  | nil => intro _ f1 f2 h; simp at h
  | cons f rest ih =>
    intro h f1 f2 h1 h2 hn
    simp only [List.map_cons, List.nodup_cons] at h
    obtain ⟨ha, hb⟩ := h
    rcases List.mem_cons.mp h1 with e1 | e1 <;> rcases List.mem_cons.mp h2 with e2 | e2
    · rw [e1, e2]
    · exfalso; subst e1; exact ha (List.mem_map.mpr ⟨f2, e2, hn.symm⟩)
    · exfalso; subst e2; exact ha (List.mem_map.mpr ⟨f1, e1, hn⟩)
    · exact ih hb e1 e2 hn

theorem removeOldest_subset {mx : Nat} : ∀ {l : List FileEntry} {cur : Nat} {fe : FileEntry},
    fe ∈ removeOldest mx l cur → fe ∈ l := by
  intro l
  induction l with
  | nil => intro cur fe h; simp [removeOldest] at h
  | cons f rest ih =>
    intro cur fe h
    by_cases hc : 5 * cur ≤ 4 * mx
    · simpa [removeOldest, hc] using h
    · simp only [removeOldest, hc, if_false] at h
      exact List.mem_cons_of_mem _ (ih h)

theorem cleanup_mem_subset {cfg : CacheConfig} {now : Nat} {st : CacheState} :
    ∀ {fe : FileEntry}, fe ∈ (cleanup cfg now st).files → fe ∈ st.files := by
  intro fe h
  simp only [cleanup] at h
  by_cases hsz : totalFileSize st.files > cfg.maxSize
  · rw [if_pos hsz] at h
    simp only [cleanupBySize] at h
    have h1 := removeOldest_subset h
    have h2 := ((List.perm_insertionSort _ _).mem_iff).mp h1
    exact (List.mem_filter.mp h2).1
  · rw [if_neg hsz] at h
    exact (List.mem_filter.mp h).1

theorem totalFileSize_sort (l : List FileEntry) :
    totalFileSize (sortByMtime l) = totalFileSize l := by
  unfold totalFileSize sortByMtime
  exact ((List.perm_insertionSort _ l).map FileEntry.size).sum_eq

/-! Lemmas on the size-bounded eviction loop -/

theorem totalFileSize_cons (f : FileEntry) (l : List FileEntry) :
    totalFileSize (f :: l) = f.size + totalFileSize l := by
  simp [totalFileSize]

theorem removeOldest_size_le (mx : Nat) : ∀ l cur, cur = totalFileSize l →
    5 * totalFileSize (removeOldest mx l cur) ≤ 4 * mx := by
  intro l
  induction l with
  | nil => intro cur h; simp [removeOldest, totalFileSize]
  | cons f rest ih =>
    intro cur h
    by_cases hc : 5 * cur ≤ 4 * mx
    · rw [show removeOldest mx (f :: rest) cur = f :: rest from by simp [removeOldest, hc], ← h]
      exact hc
    · have hrest : cur - f.size = totalFileSize rest := by
        rw [h, totalFileSize_cons]; omega
      rw [show removeOldest mx (f :: rest) cur = removeOldest mx rest (cur - f.size) from by
        simp [removeOldest, hc]]
      exact ih _ hrest

theorem removeOldest_drop (mx : Nat) : ∀ l cur, cur = totalFileSize l →
    ∃ k, k ≤ l.length ∧ removeOldest mx l cur = l.drop k ∧
      ∀ j, j < k → 4 * mx < 5 * totalFileSize (l.drop j) := by
  intro l
  induction l with
  | nil => intro cur h; exact ⟨0, by simp, by simp [removeOldest], by omega⟩
  | cons f rest ih =>
    intro cur h
    by_cases hc : 5 * cur ≤ 4 * mx
    · exact ⟨0, by simp, by simp [removeOldest, hc], by omega⟩
    · have hrest : cur - f.size = totalFileSize rest := by
        rw [h, totalFileSize_cons]; omega
      obtain ⟨k, hk, heq, hmin⟩ := ih (cur - f.size) hrest
      refine ⟨k + 1, by simpa using Nat.succ_le_succ hk, ?_, ?_⟩
      · rw [show removeOldest mx (f :: rest) cur = removeOldest mx rest (cur - f.size) from by
          simp [removeOldest, hc]]
        rw [heq, List.drop_succ_cons]
      · intro j hj
        cases j with
        | zero =>
          rw [List.drop_zero, ← h]
          omega
        | succ j' =>
          rw [List.drop_succ_cons]
          exact hmin j' (by omega)

/-! Lemma on batch settling -/

theorem batch_foldl (outcome : Nat → LogoRequest → Except JsError LogoResult) :
    ∀ (l : List (Nat × LogoRequest)) (acc : BatchResult),
      l.foldl (batchStep outcome) acc =
        { successful := acc.successful ++ l.filterMap (fun ir => (outcome ir.1 ir.2).toOption),
          failed := acc.failed ++ l.filterMap (fun ir =>
            match outcome ir.1 ir.2 with
            | .error e => some ⟨ir.2, e⟩
            | .ok _ => none),
          stats := { total := acc.stats.total,
                     successful := acc.stats.successful +
                       (l.filterMap (fun ir => (outcome ir.1 ir.2).toOption)).length,
                     failed := acc.stats.failed + (l.filterMap (fun ir =>
                       match outcome ir.1 ir.2 with
                       | .error e => some (⟨ir.2, e⟩ : FailedGeneration)
                       | .ok _ => none)).length,
                     totalCost := acc.stats.totalCost +
                       ((l.filterMap (fun ir => (outcome ir.1 ir.2).toOption)).map
                         (fun res => res.metadata.cost)).sum,
                     duration := acc.stats.duration } } := by
  intro l
  induction l with
  | nil => intro acc; simp
  | cons ir rest ih =>
    intro acc
    cases hoc : outcome ir.1 ir.2 with
    | ok res =>
      rw [List.foldl_cons,
        show batchStep outcome acc ir =
          { acc with
            successful := acc.successful ++ [res],
            stats := { acc.stats with
                       successful := acc.stats.successful + 1,
                       totalCost := acc.stats.totalCost + res.metadata.cost } } from by
          simp [batchStep, hoc]]
      rw [ih]
      simp only [List.filterMap_cons, hoc, Except.toOption, BatchResult.mk.injEq,
        BatchStats.mk.injEq, List.append_assoc, List.singleton_append, List.length_cons,
        List.map_cons, List.sum_cons]
      and_intros <;> first | trivial | omega | ring
    | error e =>
      rw [List.foldl_cons,
        show batchStep outcome acc ir =
          { acc with
            failed := acc.failed ++ [(⟨ir.2, e⟩ : FailedGeneration)],
            stats := { acc.stats with failed := acc.stats.failed + 1 } } from by
          simp [batchStep, hoc]]
      rw [ih]
      simp only [List.filterMap_cons, hoc, Except.toOption, BatchResult.mk.injEq,
        BatchStats.mk.injEq, List.append_assoc, List.singleton_append, List.length_cons,
        List.map_cons, List.sum_cons]
      and_intros <;> first | trivial | omega | ring

/-! Lemmas on prompt composition -/

theorem trailsB_append_self (t x : Str) : trailsB t (x ++ t) = true := by
  unfold trailsB
  rw [List.reverse_append]
  exact leadsB_refl_append _ _

theorem isSubstr_extend_right {t s : Str} (h : isSubstr t s = true) (r : Str) :
    isSubstr t (s ++ r) = true := by
  rw [isSubstr_parts] at h ⊢
  obtain ⟨x, y, rfl⟩ := h
  exact ⟨x, y ++ r, by simp [List.append_assoc]⟩

theorem addQualityModifiers_tail (p : Str) :
    addQualityModifiers p = p ++ str ", clean geometric shapes, scalable vector design, professional quality, suitable for branding, on white background, high contrast, memorable and distinctive" := by
  unfold addQualityModifiers
  rw [List.append_assoc]
  rfl

theorem addStyleElements_extends (p st : Str) : ∃ r, addStyleElements p st = p ++ r :=
  ⟨str ", " ++ (styleModifier st).getD [], by simp [addStyleElements, List.append_assoc]⟩

theorem addColorGuidance_extends (p : Str) (c : Option (List Str)) :
    ∃ r, addColorGuidance p c = p ++ r := by
  cases c with
  | none => exact ⟨[], by simp [addColorGuidance]⟩
  | some cs =>
    by_cases h1 : cs.isEmpty
    · exact ⟨[], by simp [addColorGuidance, h1]⟩
    · by_cases h2 : cs.length = 1
      · exact ⟨str ", " ++ str "primarily " ++ cs.headD [] ++ str " color scheme",
          by simp [addColorGuidance, h1, h2, List.append_assoc]⟩
      · exact ⟨str ", " ++ str "using " ++ joinSep (str ", ") cs.dropLast ++ str " and " ++
            cs.getLastD [] ++ str " colors",
          by simp [addColorGuidance, h1, h2, List.append_assoc]⟩

theorem buildBasePrompt_decomp (req : LogoRequest) (st : Str) (ind : Option Str) :
    ∃ b, buildBasePrompt req st ind =
      st ++ str " " ++ b ++ str " for " ++ req.company ++ str ": " ++ req.prompt :=
  ⟨_, rfl⟩

theorem basicOptimize_decomp (req : LogoRequest) (opts : GenerationOptions) :
    ∃ r, basicOptimize req opts =
      orElseStr opts.style (orElseStr req.style (str "modern")) ++ r := by
  have key : ∀ (s rest st2 : Str), (∃ q, s = st2 ++ q) → ∃ q, s ++ rest = st2 ++ q := by
    rintro s rest st2 ⟨q, rfl⟩
    exact ⟨q ++ rest, by rw [List.append_assoc]⟩
  set st2 := orElseStr opts.style (orElseStr req.style (str "modern")) with hst
  obtain ⟨b, hb⟩ := buildBasePrompt_decomp req st2 (orOptStr opts.industry req.industry)
  have k0 : ∃ q, buildBasePrompt req st2 (orOptStr opts.industry req.industry) = st2 ++ q := by
    refine ⟨str " " ++ b ++ str " for " ++ req.company ++ str ": " ++ req.prompt, ?_⟩
    rw [hb]; simp [List.append_assoc]
  obtain ⟨r1, h1⟩ := addStyleElements_extends
    (buildBasePrompt req st2 (orOptStr opts.industry req.industry)) st2
  obtain ⟨r2, h2⟩ := addColorGuidance_extends
    (addStyleElements (buildBasePrompt req st2 (orOptStr opts.industry req.industry)) st2)
    (match opts.colors with | some cs => some cs | none => req.colors)
  unfold basicOptimize
  rw [addQualityModifiers_tail, h2, h1]
  exact key _ _ _ (key _ _ _ (key _ _ _ k0))

/-! Lemma on batch counting -/

theorem filterMap_ok_err_length (outcome : Nat → LogoRequest → Except JsError LogoResult) :
    ∀ (l : List (Nat × LogoRequest)),
      (l.filterMap (fun ir => (outcome ir.1 ir.2).toOption)).length +
      (l.filterMap (fun ir => match outcome ir.1 ir.2 with
         | .error e => some (⟨ir.2, e⟩ : FailedGeneration)
         | .ok _ => none)).length = l.length := by
  intro l
  induction l with
  | nil => rfl
  | cons ir rest ih =>
    cases hoc : outcome ir.1 ir.2 with
    | ok res =>
      have hok : (outcome ir.1 ir.2).toOption = some res := by simp [hoc, Except.toOption]
      have herr : (match outcome ir.1 ir.2 with
          | .error e => some (⟨ir.2, e⟩ : FailedGeneration)
          | .ok _ => none) = none := by simp [hoc]
      simp only [List.filterMap_cons, hok, herr, List.length_cons]
      omega
    | error e =>
      have hok : (outcome ir.1 ir.2).toOption = none := by simp [hoc, Except.toOption]
      have herr : (match outcome ir.1 ir.2 with
          | .error e2 => some (⟨ir.2, e2⟩ : FailedGeneration)
          | .ok _ => none) = some ⟨ir.2, e⟩ := by simp [hoc]
      simp only [List.filterMap_cons, hok, herr, List.length_cons]
      omega

/-! # Claim theorems -/

/-- Claim C3: the cache key is a pure function of company, prompt, style and
colors, order-independent in the colors: permuted color lists give the same
key; the key is the SHA-256 digest of the canonical colon-separated string
(style defaulted, colors sorted ascending and comma-joined), hex encoded and
truncated to its first 16 characters. -/
theorem C3_cache_key_derivation (company prompt : Str) (style : Option Str)
    (c1 c2 : List Str) (h : c1.Perm c2) :
    createPromptHash company prompt style (some c1)
        = createPromptHash company prompt style (some c2) ∧
    (∀ colors, createPromptHash company prompt style colors
        = (sha256Hex (utf8 (canonicalStringSpec company prompt style colors))).take 16) ∧
    (createPromptHash company prompt style (some c1)).length = 16 := by
  refine ⟨?_, ?_, ?_⟩
  · simp only [createPromptHash]
    rw [jsSortStrings_perm_eq h]
  · intro colors
    cases colors <;> rfl
  · simp only [createPromptHash]
    rw [List.length_take, sha256Hex_len]
    decide

/-- Witness for C3 at the inputs of the spec example. -/
theorem C3_cache_key_derivation_witness :
    createPromptHash (str "A") (str "p") none (some [str "red", str "blue"])
      = createPromptHash (str "A") (str "p") none (some [str "blue", str "red"]) :=
  (C3_cache_key_derivation (str "A") (str "p") none
    [str "red", str "blue"] [str "blue", str "red"] (by decide)).1

/-- Claim C5: an operation failing twice with rate-limit errors and then
succeeding is invoked exactly three times by execute with three attempts and
its success value is returned; an operation failing with a non-retryable
error is invoked exactly once and its original error is rethrown with no
backoff sleep. -/
theorem C5_retry_behaviour {α : Type} :
    (∀ (op : Nat → Except JsError α) (jit : Nat → ℚ) (e1 e2 : JsError) (v : α),
       op 1 = .error e1 → op 2 = .error e2 → op 3 = .ok v →
       isRateLimitError e1 = true → isRateLimitError e2 = true →
       (execute op jit 3).result = .ok v ∧ (execute op jit 3).invocations = 3) ∧
    (∀ (op : Nat → Except JsError α) (jit : Nat → ℚ) (e : JsError),
       op 1 = .error e →
       isRateLimitError e = false → isRetryableError e = false →
       execute op jit 3 = ⟨.error e, 1, []⟩) := by
  constructor
  · intro op jit e1 e2 v h1 h2 h3 hr1 hr2
    have e3 : executeAux op jit 3 3 1 (some e2) = ⟨.ok v, 1, []⟩ := executeAux_ok h3
    have e2s : executeAux op jit 3 2 2 (some e1) =
        ⟨(executeAux op jit 3 3 1 (some e2)).result,
         (executeAux op jit 3 3 1 (some e2)).invocations + 1,
         (2, calculateBackoffDelay 2 (jit 2)) :: (executeAux op jit 3 3 1 (some e2)).sleeps⟩ :=
      executeAux_retry h2 (Or.inl hr2)
    have e1s : executeAux op jit 3 1 3 none =
        ⟨(executeAux op jit 3 2 2 (some e1)).result,
         (executeAux op jit 3 2 2 (some e1)).invocations + 1,
         (1, calculateBackoffDelay 1 (jit 1)) :: (executeAux op jit 3 2 2 (some e1)).sleeps⟩ :=
      executeAux_retry h1 (Or.inl hr1)
    unfold execute
    rw [e1s, e2s, e3]
    exact ⟨rfl, rfl⟩
  · intro op jit e h1 hr1 hr2
    unfold execute
    exact executeAux_fatal h1 hr1 (by simp [hr2])

/-- Witness for C5 with a concrete rate-limited operation and a concrete
non-retryable one. -/
theorem C5_retry_behaviour_witness :
    ((execute (fun a => if a ≤ 2 then Except.error ⟨true, []⟩ else Except.ok 42)
        (fun _ => 0) 3).result = Except.ok 42 ∧
     (execute (fun a => if a ≤ 2 then Except.error ⟨true, []⟩ else Except.ok 42)
        (fun _ => 0) 3).invocations = 3) ∧
    execute (fun _ => (Except.error ⟨false, str "bad request"⟩ : Except JsError Nat))
        (fun _ => (0 : ℚ)) 3
      = ⟨Except.error ⟨false, str "bad request"⟩, 1, ([] : List (Nat × ℚ))⟩ :=
  ⟨C5_retry_behaviour.1 (fun a => if a ≤ 2 then Except.error ⟨true, []⟩ else Except.ok 42)
      (fun _ => 0) ⟨true, []⟩ ⟨true, []⟩ 42 rfl rfl rfl rfl rfl,
   C5_retry_behaviour.2 (fun _ => (Except.error ⟨false, str "bad request"⟩ : Except JsError Nat))
      (fun _ => (0 : ℚ)) ⟨false, str "bad request"⟩ rfl rfl rfl⟩

/-- Claim C6: every backoff sleep recorded by the retry loop for attempt a
lasts exactly min of 1000 times 2 to the a minus 1 plus the jitter drawn for
that attempt, and 30000 milliseconds; with jitter draws in the interval from
0 inclusive to 1000 exclusive, each delay lies between the jitter-free
minimum and 30000; the attempt numbers of successive sleeps are strictly
increasing, so each sleep uses a fresh draw of the jitter stream. -/
theorem C6_backoff_delay {α : Type} (op : Nat → Except JsError α) (jit : Nat → ℚ)
    (maxRetries : Nat) (hj : ∀ a, 0 ≤ jit a ∧ jit a < 1000) :
    (∀ p ∈ (execute op jit maxRetries).sleeps,
       p.2 = min ((1000 : ℚ) * 2 ^ (p.1 - 1) + jit p.1) 30000 ∧
       min ((1000 : ℚ) * 2 ^ (p.1 - 1)) 30000 ≤ p.2 ∧ p.2 ≤ 30000) ∧
    List.Chain' (fun p q : Nat × ℚ => p.1 < q.1) (execute op jit maxRetries).sleeps := by
  constructor
  · intro p hp
    have hs := (executeAux_sleeps_spec op jit maxRetries maxRetries 1 none p hp).2
    have hform : p.2 = min ((1000 : ℚ) * 2 ^ (p.1 - 1) + jit p.1) 30000 := by
      rw [hs]; rfl
    refine ⟨hform, ?_, ?_⟩
    · rw [hform]
      exact min_le_min (by linarith [(hj p.1).1]) le_rfl
    · rw [hform]
      exact min_le_right _ _
  · exact executeAux_sleeps_chain op jit maxRetries maxRetries 1 none

/-- Witness for C6 with a concrete operation sleeping twice. -/
theorem C6_backoff_delay_witness :
    (∀ p ∈ (execute (fun a => if a ≤ 2 then Except.error ⟨true, []⟩ else Except.ok 7)
        (fun _ => (250 : ℚ)) 3).sleeps,
       p.2 = min ((1000 : ℚ) * 2 ^ (p.1 - 1) + (250 : ℚ)) 30000 ∧
       min ((1000 : ℚ) * 2 ^ (p.1 - 1)) 30000 ≤ p.2 ∧ p.2 ≤ 30000) ∧
    List.Chain' (fun p q : Nat × ℚ => p.1 < q.1)
      (execute (fun a => if a ≤ 2 then Except.error ⟨true, []⟩ else Except.ok 7)
        (fun _ => (250 : ℚ)) 3).sleeps :=
  C6_backoff_delay (fun a => if a ≤ 2 then Except.error ⟨true, []⟩ else Except.ok 7)
    (fun _ => (250 : ℚ)) 3 (fun _ => ⟨by norm_num, by norm_num⟩)

/-- Claim C9: batch settling isolates per-request failure: every request
lands in exactly one of the two collections, failures as request-error
pairs, successes as full results; the stats count the inputs, the two
collections partition them, and the total cost is the sum of the costs of
the successful results. -/
theorem C9_batch_isolation (requests : List LogoRequest)
    (outcome : Nat → LogoRequest → Except JsError LogoResult) :
    (processBatch requests outcome).stats.total = requests.length ∧
    (processBatch requests outcome).successful =
      requests.enum.filterMap (fun ir => (outcome ir.1 ir.2).toOption) ∧
    (processBatch requests outcome).failed =
      requests.enum.filterMap (fun ir =>
        match outcome ir.1 ir.2 with
        | .error e => some ⟨ir.2, e⟩
        | .ok _ => none) ∧
    (processBatch requests outcome).stats.successful
      = (processBatch requests outcome).successful.length ∧
    (processBatch requests outcome).stats.failed
      = (processBatch requests outcome).failed.length ∧
    (processBatch requests outcome).successful.length
      + (processBatch requests outcome).failed.length = requests.length ∧
    (processBatch requests outcome).stats.totalCost =
      ((processBatch requests outcome).successful.map (fun res => res.metadata.cost)).sum := by
  have h := batch_foldl outcome requests.enum ⟨[], [], ⟨requests.length, 0, 0, 0, 0⟩⟩
  have hlen := filterMap_ok_err_length outcome requests.enum
  unfold processBatch
  rw [h]
  simp only [List.nil_append, Nat.zero_add, zero_add, List.enum_length] at hlen ⊢
  and_intros <;> first | trivial | exact hlen

set_option maxRecDepth 40000 in
/-- Claim C1 as stated is false on the code: with no template the
generator routes through the basic prompt engine, whose output for the
Acme request contains neither the phrase logo of nor any double-dash
negative clause, and does not start with a phrase of the professional
style table. -/
theorem C1_counterexample :
    generatorPrompt acmeRequest {} = .ok (basicOptimize acmeRequest {}) ∧
    isSubstr (str "logo of") (basicOptimize acmeRequest {}) = false ∧
    isSubstr (str "--") (basicOptimize acmeRequest {}) = false ∧
    leadsB (str "Contemporary minimalist") (basicOptimize acmeRequest {}) = false ∧
    basicOptimize acmeRequest {} = str "modern professional logo for Acme: bold new idea, contemporary design, sleek lines, current trends, clean geometric shapes, scalable vector design, professional quality, suitable for branding, on white background, high contrast, memorable and distinctive" := by
  refine ⟨rfl, by decide, by decide, by decide, by decide⟩

/-- Claim C1 (amended): for every generation request with no template the
final prompt is the one of the basic prompt engine: it starts with the
resolved style name itself (options style, else request style, else
modern), contains the clause for company colon prompt rather than logo
of, and ends with the engine's fixed quality-modifier clause closing in
memorable and distinctive, with no double-dash negative-prompt clauses
appended by the engine. -/
theorem C1_no_template_prompt (req : LogoRequest) (opts : GenerationOptions)
    (h : truthyS opts.template = false) :
    generatorPrompt req opts = .ok (basicOptimize req opts) ∧
    (∃ r, basicOptimize req opts
        = orElseStr opts.style (orElseStr req.style (str "modern")) ++ r) ∧
    leadsB (orElseStr opts.style (orElseStr req.style (str "modern")))
      (basicOptimize req opts) = true ∧
    isSubstr (str " for " ++ req.company ++ str ": " ++ req.prompt)
      (basicOptimize req opts) = true ∧
    trailsB (str ", clean geometric shapes, scalable vector design, professional quality, suitable for branding, on white background, high contrast, memorable and distinctive")
      (basicOptimize req opts) = true := by
  obtain ⟨r, hr⟩ := basicOptimize_decomp req opts
  refine ⟨?_, ⟨r, hr⟩, ?_, ?_, ?_⟩
  · unfold generatorPrompt
    rw [h]
    simp
  · rw [hr]
    exact leadsB_refl_append _ _
  · obtain ⟨b, hb⟩ := buildBasePrompt_decomp req
      (orElseStr opts.style (orElseStr req.style (str "modern")))
      (orOptStr opts.industry req.industry)
    have hbase : isSubstr (str " for " ++ req.company ++ str ": " ++ req.prompt)
        (buildBasePrompt req (orElseStr opts.style (orElseStr req.style (str "modern")))
          (orOptStr opts.industry req.industry)) = true := by
      rw [isSubstr_parts]
      refine ⟨orElseStr opts.style (orElseStr req.style (str "modern")) ++ str " " ++ b, [], ?_⟩
      rw [hb]
      simp [List.append_assoc]
    obtain ⟨r1, h1⟩ := addStyleElements_extends
      (buildBasePrompt req (orElseStr opts.style (orElseStr req.style (str "modern")))
        (orOptStr opts.industry req.industry))
      (orElseStr opts.style (orElseStr req.style (str "modern")))
    obtain ⟨r2, h2⟩ := addColorGuidance_extends
      (addStyleElements (buildBasePrompt req (orElseStr opts.style (orElseStr req.style (str "modern")))
        (orOptStr opts.industry req.industry))
        (orElseStr opts.style (orElseStr req.style (str "modern"))))
      (match opts.colors with | some cs => some cs | none => req.colors)
    unfold basicOptimize
    rw [addQualityModifiers_tail, h2, h1]
    exact isSubstr_extend_right (isSubstr_extend_right (isSubstr_extend_right hbase r1) r2) _
  · unfold basicOptimize
    rw [addQualityModifiers_tail]
    exact trailsB_append_self _ _

/-- Witness for the amended C1 at the Acme request of the spec scenario. -/
theorem C1_no_template_prompt_witness :
    generatorPrompt acmeRequest {} = .ok (basicOptimize acmeRequest {}) ∧
    isSubstr (str " for " ++ (acmeRequest).company ++ str ": " ++ (acmeRequest).prompt)
      (basicOptimize acmeRequest {}) = true ∧
    trailsB (str ", clean geometric shapes, scalable vector design, professional quality, suitable for branding, on white background, high contrast, memorable and distinctive")
      (basicOptimize acmeRequest {}) = true :=
  ⟨(C1_no_template_prompt acmeRequest {} rfl).1,
   (C1_no_template_prompt acmeRequest {} rfl).2.2.2.1,
   (C1_no_template_prompt acmeRequest {} rfl).2.2.2.2⟩

/-- Claim C7: naming a template id absent from the catalog makes the
generation fail with the template-not-found error carrying the id, with
zero invocations of the image API: the failure precedes the retry
wrapper. -/
theorem C7_unknown_template (req : LogoRequest) (opts : GenerationOptions)
    (api : Nat → Except JsError ApiResponse) (jit : Nat → ℚ) (idv : Str) (now : Nat)
    (tid : Str) (ht : opts.template = some tid) (hne : tid ≠ [])
    (habs : lookupTemplate tid = none) :
    generate req opts api jit idv now
      = (.error ⟨false, str "Template not found: " ++ tid⟩, 0) := by
  have htr : truthyS opts.template = true := by
    rw [ht]
    simpa [truthyS] using hne
  unfold generate generatorPrompt proOptimizePrompt generateFromTemplate
  rw [htr]
  simp [ht, habs]

/-- Witness for C7 at a concrete unknown id. -/
theorem C7_unknown_template_witness :
    generate acmeRequest { template := some (str "no-such-template") }
        (fun _ => Except.ok ⟨[]⟩) (fun _ => 0) (str "logo_1") 0
      = (.error ⟨false, str "Template not found: " ++ str "no-such-template"⟩, 0) :=
  C7_unknown_template acmeRequest { template := some (str "no-such-template") }
    (fun _ => Except.ok ⟨[]⟩) (fun _ => 0) (str "logo_1") 0
    (str "no-such-template") rfl (by decide) (by decide)

/-- Claim C8: a parsed CSV row is kept only when both the company and the
prompt or description cell are nonempty after trimming and quote
stripping; a row with an empty prompt is silently dropped; a colors cell
red semicolon blue parses to the two-element color list. -/
theorem C8_csv_parsing (content : Str) :
    (∀ row ∈ parseCSV content,
        (∃ c, row.company = some c ∧ c ≠ []) ∧ (∃ p, row.prompt = some p ∧ p ≠ [])) ∧
    parseCSV (str "company,description\nAcme,") = [] ∧
    parseCSV (str "company,prompt,colors\nAcme,fresh logo,red;blue") =
      [{ company := some (str "Acme"), prompt := some (str "fresh logo"), style := none,
         colors := some [str "red", str "blue"], size := none, quality := none }] := by
  refine ⟨?_, by decide, by decide⟩
  intro row hrow
  have hmem : row ∈ (jsSplit (str "\n") (jsTrim content)).tail.map
      (fun line => parseRow ((jsSplit (str ",") ((jsSplit (str "\n") (jsTrim content)).headD [])).map jsTrim)
        ((jsSplit (str ",") line).map csvValue)) ∧ truthyRow row = true := by
    have := hrow
    simp only [parseCSV] at this
    exact List.mem_filter.mp this
  have htr := hmem.2
  simp only [truthyRow, Bool.and_eq_true, truthyS] at htr
  obtain ⟨h1, h2⟩ := htr
  constructor
  · cases hc : row.company with
    | none => rw [hc] at h1; simp at h1
    | some c =>
      rw [hc] at h1
      simp only [Bool.not_eq_true'] at h1
      refine ⟨c, rfl, ?_⟩
      cases c with
      | nil => simp at h1
      | cons => exact List.cons_ne_nil _ _
  · cases hp : row.prompt with
    | none => rw [hp] at h2; simp at h2
    | some p =>
      rw [hp] at h2
      simp only [Bool.not_eq_true'] at h2
      refine ⟨p, rfl, ?_⟩
      cases p with
      | nil => simp at h2
      | cons => exact List.cons_ne_nil _ _

/-- Witness for C8 at the concrete two-column file kept in full. -/
theorem C8_csv_parsing_witness :
    (∃ c, ({ company := some (str "Acme"), prompt := some (str "fresh logo"), style := none,
             colors := some [str "red", str "blue"], size := none,
             quality := none } : CsvRow).company = some c ∧ c ≠ []) ∧
    (∃ p, ({ company := some (str "Acme"), prompt := some (str "fresh logo"), style := none,
             colors := some [str "red", str "blue"], size := none,
             quality := none } : CsvRow).prompt = some p ∧ p ≠ []) :=
  (C8_csv_parsing (str "company,prompt,colors\nAcme,fresh logo,red;blue")).1
    { company := some (str "Acme"), prompt := some (str "fresh logo"), style := none,
      colors := some [str "red", str "blue"], size := none, quality := none }
    (by decide)

set_option maxRecDepth 40000 in
/-- Claim C10: interpolation only ever rewrites the seven placeholder
patterns, so any distinct placeholder token of a base prompt survives
verbatim into the final prompt; with no colors supplied the cited
minimal-geometric base prompt is returned verbatim, keeping SHAPE and
PRIMARY-COLOR tokens literally. -/
theorem C10_placeholder_survival :
    (∀ (req : LogoRequest) (opts : GenerationOptions), opts.colors = none →
       interpolateTemplate (str "Minimalist geometric logo, [SHAPE] form, flat vector design, [PRIMARY_COLOR] on white background, sharp edges, scalable") req opts
         = str "Minimalist geometric logo, [SHAPE] form, flat vector design, [PRIMARY_COLOR] on white background, sharp edges, scalable") ∧
    lookupTemplate (str "minimal-geometric")
      = some ⟨str "minimal-geometric",
             str "Minimalist geometric logo, [SHAPE] form, flat vector design, [PRIMARY_COLOR] on white background, sharp edges, scalable",
             [str "no gradients", str "no 3D effects", str "no ornate details"]⟩ ∧
    isSubstr (str "[SHAPE]") (str "Minimalist geometric logo, [SHAPE] form, flat vector design, [PRIMARY_COLOR] on white background, sharp edges, scalable") = true ∧
    isSubstr (str "[PRIMARY_COLOR]") (str "Minimalist geometric logo, [SHAPE] form, flat vector design, [PRIMARY_COLOR] on white background, sharp edges, scalable") = true ∧
    (∀ (s t : Str) (req : LogoRequest) (opts : GenerationOptions),
       bracketTokenB t = true → t ∉ interpolationPatterns →
       isSubstr t s = true → isSubstr t (interpolateTemplate s req opts) = true) := by
  refine ⟨?_, by decide, by decide, by decide, ?_⟩
  · intro req opts hc
    simp only [interpolateTemplate, hc]
    rfl
  · intro s t req opts hbt hnotin hsub
    simp only [interpolationPatterns, List.mem_cons, List.not_mem_nil, or_false, not_or] at hnotin
    obtain ⟨n1, n2, n3, n4, n5, n6, n7⟩ := hnotin
    unfold interpolateTemplate
    have h1 := replaceAll_preserves hbt (by decide) n1 req.company s hsub
    have h2 := replaceAll_preserves hbt (by decide) n2 req.prompt _ h1
    have h3 := replaceAll_preserves hbt (by decide) n3 (orElseStr opts.style (str "modern")) _ h2
    have h4 := replaceAll_preserves hbt (by decide) n4 (orElseStr opts.industry (str "business")) _ h3
    cases hcol : opts.colors with
    | none => exact h4
    | some cs =>
      by_cases hlen : cs.length > 0
      · simp only [hlen, if_true]
        have h5 := replaceAll_preserves hbt (by decide) n5 (cs.headD []) _ h4
        have h6 := replaceAll_preserves hbt (by decide) n6
          (match cs.get? 1 with
           | some c => if c.isEmpty then cs.headD [] else c
           | none => cs.headD []) _ h5
        exact replaceAll_preserves hbt (by decide) n7 (joinSep (str " and ") cs) _ h6
      · simp only [hlen, if_false]
        exact h4

set_option maxRecDepth 40000 in
/-- Witness for C10 at the cited template, one with and one without
colors. -/
theorem C10_placeholder_survival_witness :
    interpolateTemplate (str "Minimalist geometric logo, [SHAPE] form, flat vector design, [PRIMARY_COLOR] on white background, sharp edges, scalable") acmeRequest {}
      = str "Minimalist geometric logo, [SHAPE] form, flat vector design, [PRIMARY_COLOR] on white background, sharp edges, scalable" ∧
    isSubstr (str "[SHAPE]")
      (interpolateTemplate (str "Minimalist geometric logo, [SHAPE] form, flat vector design, [PRIMARY_COLOR] on white background, sharp edges, scalable")
        acmeRequest { colors := some [str "red"] }) = true :=
  ⟨(C10_placeholder_survival).1 acmeRequest {} rfl,
   (C10_placeholder_survival).2.2.2.2
     (str "Minimalist geometric logo, [SHAPE] form, flat vector design, [PRIMARY_COLOR] on white background, sharp edges, scalable")
     (str "[SHAPE]") acmeRequest { colors := some [str "red"] }
     (by decide) (by decide) (by decide)⟩

/-- Claim C2: after set of key and value, a get of that key before the
expiry returns the entry written by the most recent set, carrying the
stored value with a true hit flag; a get after the ttl has elapsed
returns absent; and globally a get never returns a hit when the instant
exceeds the expiry, from either tier.  The file names of the directory
are assumed distinct as on any real file system. -/
theorem C2_cache_get_set (cfg : CacheConfig) (s : CacheState) (k : Str) (v : LogoResult)
    (now sz : Nat) (coin : Bool) (hnodup : (s.files.map FileEntry.name).Nodup) :
    (∀ now2, now2 ≤ now + cfg.ttlMs →
       (cacheGet now2 k (cacheSet cfg now k v sz coin s)).1
         = some ⟨v, now + cfg.ttlMs, true⟩) ∧
    (∀ now3, now + cfg.ttlMs < now3 →
       (cacheGet now3 k (cacheSet cfg now k v sz coin s)).1 = none) ∧
    (∀ (tnow : Nat) (key : Str) (st : CacheState) (c : CachedLogo),
       (cacheGet tnow key st).1 = some c → tnow ≤ c.expiresAt) := by
  have hmem : memLookup k (cacheSet cfg now k v sz coin s).memory
      = some ⟨v, now + cfg.ttlMs, false⟩ := by
    cases coin with
    | false =>
      simp only [cacheSet, Bool.false_eq_true, if_false]
      exact memLookup_insert k _ s.memory
    | true =>
      simp only [cacheSet, if_true, cleanup]
      exact memLookup_filter_insert k _ _
        (by simp only [Bool.not_eq_true', decide_eq_false_iff_not]; omega) s.memory
  refine ⟨?_, ?_, ?_⟩
  · intro now2 h2
    simp [cacheGet, hmem, h2]
  · intro now3 h3
    have hclose : ¬ (now3 ≤ (⟨v, now + cfg.ttlMs, false⟩ : CachedLogo).expiresAt) := by
      simp only [CachedLogo.mk.injEq]
      omega
    cases hf : fileLookup k (cacheSet cfg now k v sz coin s).files with
    | none => simp [cacheGet, hmem, hf, hclose]
    | some fe =>
      have hfm := fileLookup_mem hf
      have hsub : fe ∈ fileWrite ⟨k, some ⟨v, now + cfg.ttlMs, false⟩, sz, now⟩ s.files := by
        cases coin with
        | false => simpa [cacheSet] using hfm.1
        | true =>
          have hm1 := hfm.1
          simp only [cacheSet, if_true] at hm1
          exact cleanup_mem_subset hm1
      have hfe : fe = ⟨k, some ⟨v, now + cfg.ttlMs, false⟩, sz, now⟩ :=
        names_unique (fileWrite_nodupNames hnodup) hsub
          (self_mem_fileWrite _ s.files) (by simp [hfm.2])
      rw [hfe] at hf
      simp [cacheGet, hmem, hf, hclose]
  · intro tnow key st c h
    cases hm : memLookup key st.memory with
    | some c0 =>
      by_cases he : tnow ≤ c0.expiresAt
      · simp only [cacheGet, hm, he, if_true, Option.some.injEq] at h
        rw [← h]
        exact he
      · cases hf : fileLookup key st.files with
        | none => simp [cacheGet, hm, he, hf] at h
        | some fe =>
          cases hfc : fe.content with
          | none => simp [cacheGet, hm, he, hf, hfc] at h
          | some c1 =>
            by_cases he2 : tnow ≤ c1.expiresAt
            · simp only [cacheGet, hm, he, hf, hfc, he2, if_true, if_false,
                Option.some.injEq] at h
              rw [← h]
              exact he2
            · simp [cacheGet, hm, he, hf, hfc, he2] at h
    | none =>
      cases hf : fileLookup key st.files with
      | none => simp [cacheGet, hm, hf] at h
      | some fe =>
        cases hfc : fe.content with
        | none => simp [cacheGet, hm, hf, hfc] at h
        | some c1 =>
          by_cases he2 : tnow ≤ c1.expiresAt
          · simp only [cacheGet, hm, hf, hfc, he2, if_true, Option.some.injEq] at h
            rw [← h]
            exact he2
          · simp [cacheGet, hm, hf, hfc, he2] at h

/-- Witness for C2 on concrete states, covering both coin outcomes and a
positive hit of the global expiry invariant. -/
theorem C2_cache_get_set_witness :
    (cacheGet 900 (str "k") (cacheSet ⟨1000, 100⟩ 5 (str "k") sampleResult 10 false ⟨[], []⟩)).1
      = some ⟨sampleResult, 1005, true⟩ ∧
    (cacheGet 2000 (str "k") (cacheSet ⟨1000, 100⟩ 5 (str "k") sampleResult 10 true ⟨[], []⟩)).1
      = none ∧
    (3 : Nat) ≤ (⟨sampleResult, 10, true⟩ : CachedLogo).expiresAt :=
  ⟨(C2_cache_get_set ⟨1000, 100⟩ ⟨[], []⟩ (str "k") sampleResult 5 10 false (by simp)).1
      900 (by decide),
   (C2_cache_get_set ⟨1000, 100⟩ ⟨[], []⟩ (str "k") sampleResult 5 10 true (by simp)).2.1
      2000 (by decide),
   (C2_cache_get_set ⟨1000, 100⟩ ⟨[], []⟩ (str "k") sampleResult 5 10 true (by simp)).2.2
      3 (str "k") ⟨[(str "k", ⟨sampleResult, 10, false⟩)], []⟩ ⟨sampleResult, 10, true⟩
      (by rfl)⟩

/-- Claim C4: when the scanned total size exceeded the bound, a cleanup
pass leaves the persisted size at or below four fifths of the bound;
when it did not, exactly the expired and unparsable files are deleted;
in the forced case the surviving files are a suffix of the live files in
ascending modification-time order, and the eviction is minimal: dropping
any shorter prefix would leave the size above the four-fifths mark. -/
theorem C4_cleanup_bound (cfg : CacheConfig) (now : Nat) (s : CacheState) :
    (cfg.maxSize < totalFileSize s.files →
       5 * totalFileSize (cleanup cfg now s).files ≤ 4 * cfg.maxSize) ∧
    (totalFileSize s.files ≤ cfg.maxSize →
       (cleanup cfg now s).files = s.files.filter (fun fe => !entryDead now fe)) ∧
    (cfg.maxSize < totalFileSize s.files →
       ∃ k, k ≤ (sortByMtime (s.files.filter (fun fe => !entryDead now fe))).length ∧
         (cleanup cfg now s).files
           = (sortByMtime (s.files.filter (fun fe => !entryDead now fe))).drop k ∧
         ∀ j, j < k → 4 * cfg.maxSize
           < 5 * totalFileSize
               ((sortByMtime (s.files.filter (fun fe => !entryDead now fe))).drop j)) := by
  refine ⟨?_, ?_, ?_⟩
  · intro h
    simp only [cleanup, if_pos h]
    exact removeOldest_size_le cfg.maxSize _ _ rfl
  · intro h
    simp only [cleanup, if_neg (by omega : ¬ cfg.maxSize < totalFileSize s.files)]
  · intro h
    simp only [cleanup, if_pos h]
    exact removeOldest_drop cfg.maxSize _ _ rfl

/-- Witness for C4: a forced pass on two live six-byte files with a
ten-byte bound evicts the older file, and an unforced pass keeps both. -/
theorem C4_cleanup_bound_witness :
    5 * totalFileSize (cleanup ⟨0, 10⟩ 0
        ⟨[], [sampleFile (str "a") 5 6 1, sampleFile (str "b") 5 6 2]⟩).files ≤ 40 ∧
    (cleanup ⟨0, 100⟩ 0 ⟨[], [sampleFile (str "a") 5 6 1, sampleFile (str "b") 5 6 2]⟩).files
      = [sampleFile (str "a") 5 6 1, sampleFile (str "b") 5 6 2].filter
          (fun fe => !entryDead 0 fe) ∧
    (∃ k, k ≤ (sortByMtime ([sampleFile (str "a") 5 6 1, sampleFile (str "b") 5 6 2].filter
          (fun fe => !entryDead 0 fe))).length ∧
       (cleanup ⟨0, 10⟩ 0
           ⟨[], [sampleFile (str "a") 5 6 1, sampleFile (str "b") 5 6 2]⟩).files
         = (sortByMtime ([sampleFile (str "a") 5 6 1, sampleFile (str "b") 5 6 2].filter
             (fun fe => !entryDead 0 fe))).drop k ∧
       ∀ j, j < k → 40
         < 5 * totalFileSize
             ((sortByMtime ([sampleFile (str "a") 5 6 1, sampleFile (str "b") 5 6 2].filter
               (fun fe => !entryDead 0 fe))).drop j)) :=
  ⟨(C4_cleanup_bound ⟨0, 10⟩ 0
      ⟨[], [sampleFile (str "a") 5 6 1, sampleFile (str "b") 5 6 2]⟩).1 (by decide),
   (C4_cleanup_bound ⟨0, 100⟩ 0
      ⟨[], [sampleFile (str "a") 5 6 1, sampleFile (str "b") 5 6 2]⟩).2.1 (by decide),
   (C4_cleanup_bound ⟨0, 10⟩ 0
      ⟨[], [sampleFile (str "a") 5 6 1, sampleFile (str "b") 5 6 2]⟩).2.2 (by decide)⟩

end LogoGen
